import Mathlib

/-!
# ClockSpeeds — a verification development

A shallow embedding of the core logic of the ClockSpeeds CPU monitoring and
control application (Python/GTK), together with theorems settling the
specification's claims about it.

Modules embedded (with the Python source they are translated from):

* `cpu_management.py` — `CPUManager.calculate_load`, the per-thread command
  builders (`apply_cpu_clock_speed_limits`, `set_cpu_governor`,
  `set_energy_perf_bias`, `set_ryzen_tdp`, `set_pbo_curve_offset`), and the
  `/proc/cpuinfo` parser (`parse_cpu_info`, `_determine_physical_cores`,
  `get_cpu_info`).
* `cpu_file_search.py` — `DirectoryCache.cached_directory_walk`, and the
  cache-load / validation flow of `CPUFileSearch.__init__`.
* `apply_settings.py` — `SettingsApplier.create_apply_script` and
  `SettingsApplier.create_pbo_command` (the boot-script generator).

Python conventions mirrored throughout:

* Python integers are unbounded, so they are `Int` (or `Nat` where the source
  value is provably non-negative); Python float division on integer inputs is
  modelled exactly with `ℚ` (all divisions in scope are exact at the claimed
  inputs).
* Python's truthiness test on an optional string (`if not x:`) is false for
  `None` and for the empty string; it is modelled by `pyTruthy`.
* Python's `x & 0xFFFF` on an unbounded two's-complement integer equals
  `x mod 2^16`; it is modelled by `Int.emod` (Lean's `%` on `Int`), which has
  exactly that floor-mod behaviour.
* A Python function that raises is modelled with `Except`/`Option`, or with an
  explicit outcome inductive when the caller catches the exception.
-/

namespace ClockSpeeds

/-- Python truthiness of an optional string: `None` and `""` are falsy. -/
def pyTruthy : Option String → Bool
  | none => false
  | some s => s ≠ ""

/-! ## Sampling engine: CPU load (`cpu_management.py`, `CPUManager.calculate_load`)

One row of the parsed `/proc/stat` snapshot, as built by `read_stat_file`
(lines 626–641): the cpu label and the first four counters of the line. -/

structure StatRow where
  cpu_id : String
  user : Int
  nice : Int
  system : Int
  idle : Int
deriving Repr, DecidableEq

/-- `total_diff` of `calc_load` (lines 650–651): the delta of the sum of the
four counters between the previous and current snapshot rows. -/
def total_diff (p c : StatRow) : Int :=
  (c.user + c.nice + c.system + c.idle) - (p.user + p.nice + p.system + p.idle)

/-- `idle_diff` of `calc_load` (line 652). -/
def idle_diff (p c : StatRow) : Int :=
  c.idle - p.idle

/-- The inner `calc_load` of `CPUManager.calculate_load` (lines 645–658):
`100 * (total_diff - idle_diff) / total_diff` when `total_diff` is nonzero
(Python truthiness of an int), else `0.0`. Python float division of integers
is modelled in `ℚ`. -/
def calc_load (p c : StatRow) : String × ℚ :=
  if total_diff p c ≠ 0 then
    (p.cpu_id, 100 * ((total_diff p c : ℚ) - (idle_diff p c : ℚ)) / (total_diff p c : ℚ))
  else
    (p.cpu_id, 0)

/-- `CPUManager.calculate_load` (lines 643–664): maps `calc_load` over the
zipped previous and current snapshots. (The Python `dict(loads)` keeps the
association list's pairs; cpu ids are distinct in `/proc/stat`.) -/
def calculate_load (prev_stat curr_stat : List StatRow) : List (String × ℚ) :=
  (List.zip prev_stat curr_stat).map (fun pc => calc_load pc.1 pc.2)

/-! ## Command builder: PBO curve offset
(`cpu_management.py`, `set_pbo_curve_offset.create_pbo_command`, lines 1270–1287) -/

/-- Lines 1275–1280: the user-facing non-negative magnitude is negated
(`offset_value = -offset_value`) and then, being negative, encoded as 16-bit
two's complement (`if offset_value < 0: offset_value = (1 << 16) + offset_value`). -/
def pbo_encode_offset (offset_value : Int) : Int :=
  let negated := -offset_value
  if negated < 0 then 65536 + negated else negated

/-- Line 1284: `((core_id & 8) << 5 | core_id & 7) << 20 | (offset_value & 0xFFFF)`.
`core_id` is a non-negative Python int, so the core-id transform is `Nat`
bitwise arithmetic; `offset_value & 0xFFFF` on the (possibly negative)
encoded offset is two's-complement masking, i.e. `offset_value mod 2^16`,
which is non-negative, so the outer `|` is also on `Nat`. -/
def smu_args_value (core_id : Nat) (offset_value : Int) : Nat :=
  ((((core_id &&& 8) <<< 5) ||| (core_id &&& 7)) <<< 20) ||| (offset_value % 65536).toNat

/-- The first write of each per-core pair (line 1285). -/
def pbo_args_command (core_id : Nat) (offset_value : Int) : String :=
  "echo " ++ toString (smu_args_value core_id offset_value) ++
    " | sudo tee /sys/kernel/ryzen_smu_drv/smu_args > /dev/null"

/-- The second write of each per-core pair (line 1286): the fixed opcode 0x35
to the SMU command file. -/
def pbo_opcode_command : String :=
  "echo '0x35' | sudo tee /sys/kernel/ryzen_smu_drv/mp1_smu_cmd > /dev/null"

/-- The `commands` list built by `create_pbo_command` (lines 1272–1286): for
each `core_id in range(physical_cores)`, the args write then the opcode write. -/
def create_pbo_command_list (offset_value : Int) (physical_cores : Nat) : List String :=
  (List.range physical_cores).flatMap (fun core_id =>
    [pbo_args_command core_id (pbo_encode_offset offset_value), pbo_opcode_command])

/-- `create_pbo_command` (line 1287): the commands joined with `" && "`. -/
def create_pbo_command (offset_value : Int) (physical_cores : Nat) : String :=
  String.intercalate " && " (create_pbo_command_list offset_value physical_cores)

/-! Helper lemmas about lists built as `(List.range n).flatMap (fun c => [f c, g c])`. -/

theorem range_bind_pair_length {α : Type} (f g : Nat → α) (n : Nat) :
    ((List.range n).flatMap (fun c => [f c, g c])).length = 2 * n := by
  induction n with
  | zero => simp
  | succ m ih =>
      rw [List.range_succ, List.flatMap_append, List.length_append, ih]
      simp [Nat.mul_succ]

theorem range_bind_pair_getElem {α : Type} (f g : Nat → α) (n i : Nat) (hi : i < n) :
    ((List.range n).flatMap (fun c => [f c, g c]))[2 * i]? = some (f i) ∧
    ((List.range n).flatMap (fun c => [f c, g c]))[2 * i + 1]? = some (g i) := by
  induction n with
  | zero => omega
  | succ m ih =>
      rw [List.range_succ, List.flatMap_append]
      rcases Nat.lt_or_ge i m with h | h
      · have h2 : 2 * i + 1 < ((List.range m).flatMap (fun c => [f c, g c])).length := by
          rw [range_bind_pair_length]; omega
        constructor
        · rw [List.getElem?_append_left (by omega)]; exact (ih h).1
        · rw [List.getElem?_append_left h2]; exact (ih h).2
      · have him : i = m := by omega
        subst him
        have hlen : ((List.range i).flatMap (fun c => [f c, g c])).length = 2 * i :=
          range_bind_pair_length f g i
        constructor
        · rw [List.getElem?_append_right (by omega), hlen]
          simp
        · rw [List.getElem?_append_right (by omega), hlen]
          simp

/-! ## Claim theorems: C2 (PBO encoding) and C3 (load calculation) -/

/-- C2: for every non-negative user-facing PBO offset magnitude `v` and every
physical core id `c` below the core count, `create_pbo_command` encodes the
internally negated offset as 16-bit two's complement (negative value plus
65536), computes `smu_args_value = (((c & 8) << 5) | (c & 7)) << 20 |
(offset & 0xFFFF)`, and emits two writes per core, the args value to the SMU
args file then opcode 0x35 to the SMU command file; `v = 30` with `c = 0`
yields 65506, and the core-id transform for `c = 9` equals `257 <<< 20`. -/
theorem pbo_curve_offset_encoding (v : Int) (_hv : 0 ≤ v) (physical_cores : Nat) :
    (create_pbo_command_list v physical_cores).length = 2 * physical_cores
    ∧ (∀ core_id : Nat, core_id < physical_cores →
        (create_pbo_command_list v physical_cores)[2 * core_id]? =
          some ("echo " ++ toString (smu_args_value core_id (pbo_encode_offset v)) ++
            " | sudo tee /sys/kernel/ryzen_smu_drv/smu_args > /dev/null")
        ∧ (create_pbo_command_list v physical_cores)[2 * core_id + 1]? =
          some ("echo '0x35' | sudo tee /sys/kernel/ryzen_smu_drv/mp1_smu_cmd > /dev/null"))
    ∧ (0 < v → pbo_encode_offset v = 65536 + (-v))
    ∧ smu_args_value 0 (pbo_encode_offset 30) = 65506
    ∧ smu_args_value 9 (pbo_encode_offset 0) = ((257 : Nat) <<< 20) := by
  refine ⟨range_bind_pair_length _ _ _, fun core_id hcore => ?_, fun h0 => ?_, by decide, by decide⟩
  · exact range_bind_pair_getElem
      (fun c => pbo_args_command c (pbo_encode_offset v)) (fun _ => pbo_opcode_command)
      physical_cores core_id hcore
  · simp only [pbo_encode_offset]
    rw [if_pos (by omega)]

/-- Witness for `pbo_curve_offset_encoding` at `v = 30`, two physical cores. -/
theorem pbo_curve_offset_encoding_witness :
    (create_pbo_command_list 30 2).length = 2 * 2
    ∧ smu_args_value 0 (pbo_encode_offset 30) = 65506 := by
  have h := pbo_curve_offset_encoding 30 (by decide) 2
  exact ⟨h.1, h.2.2.2.1⟩

/-- C3: for every pair of per-CPU stat snapshots, `calculate_load` returns
`100 * (total_diff - idle_diff) / total_diff` for each CPU when `total_diff`
(the sum of the user+nice+system+idle deltas) is nonzero and `0` when it is
zero (no division by zero), and the load is never negative when the counters
are monotonically non-decreasing. -/
theorem calculate_load_spec (prev_stat curr_stat : List StatRow) (i : Nat)
    (hp : i < prev_stat.length) (hc : i < curr_stat.length)
    (hu : (prev_stat.get ⟨i, hp⟩).user ≤ (curr_stat.get ⟨i, hc⟩).user)
    (hn : (prev_stat.get ⟨i, hp⟩).nice ≤ (curr_stat.get ⟨i, hc⟩).nice)
    (hs : (prev_stat.get ⟨i, hp⟩).system ≤ (curr_stat.get ⟨i, hc⟩).system)
    (hi : (prev_stat.get ⟨i, hp⟩).idle ≤ (curr_stat.get ⟨i, hc⟩).idle) :
    ∃ q : ℚ,
      (calculate_load prev_stat curr_stat)[i]? =
        some ((prev_stat.get ⟨i, hp⟩).cpu_id, q)
      ∧ (total_diff (prev_stat.get ⟨i, hp⟩) (curr_stat.get ⟨i, hc⟩) ≠ 0 →
          q = 100 * ((total_diff (prev_stat.get ⟨i, hp⟩) (curr_stat.get ⟨i, hc⟩) : ℚ)
                - (idle_diff (prev_stat.get ⟨i, hp⟩) (curr_stat.get ⟨i, hc⟩) : ℚ))
              / (total_diff (prev_stat.get ⟨i, hp⟩) (curr_stat.get ⟨i, hc⟩) : ℚ))
      ∧ (total_diff (prev_stat.get ⟨i, hp⟩) (curr_stat.get ⟨i, hc⟩) = 0 → q = 0)
      ∧ 0 ≤ q := by
  set p := prev_stat.get ⟨i, hp⟩ with hpdef
  set c := curr_stat.get ⟨i, hc⟩ with hcdef
  have hzip : (List.zip prev_stat curr_stat)[i]? = some (p, c) := by
    rw [List.getElem?_zip_eq_some]
    constructor
    · rw [List.getElem?_eq_getElem hp]; rfl
    · rw [List.getElem?_eq_getElem hc]; rfl
  have hmap : (calculate_load prev_stat curr_stat)[i]? = some (calc_load p c) := by
    rw [calculate_load, List.getElem?_map, hzip]; rfl
  refine ⟨(calc_load p c).2, ?_, ?_, ?_, ?_⟩
  · rw [hmap]
    have : (calc_load p c).1 = p.cpu_id := by
      rw [calc_load]; split <;> rfl
    rw [← this]
  · intro htd
    rw [calc_load, if_pos htd]
  · intro htd
    rw [calc_load, if_neg (by simp [htd])]
  · rw [calc_load]
    split
    · next htd =>
      have htd_nonneg : 0 ≤ total_diff p c := by
        simp only [total_diff]; omega
      have htd_pos : 0 < total_diff p c := lt_of_le_of_ne htd_nonneg (Ne.symm htd)
      have hnum : 0 ≤ (total_diff p c : ℚ) - (idle_diff p c : ℚ) := by
        have : idle_diff p c ≤ total_diff p c := by
          simp only [total_diff, idle_diff]; omega
        have h2 : (idle_diff p c : ℚ) ≤ (total_diff p c : ℚ) := by exact_mod_cast this
        linarith
      have hden : 0 ≤ (total_diff p c : ℚ) := by positivity
      simp only
      positivity
    · simp

/-- Witness for `calculate_load_spec` at the claim's concrete snapshots:
`prev = (0,0,0,0)`, `curr = (50,0,50,100)` gives load 50, and equal snapshots
give load 0. -/
theorem calculate_load_spec_witness :
    (∃ q : ℚ,
      (calculate_load [⟨"cpu", 0, 0, 0, 0⟩] [⟨"cpu", 50, 0, 50, 100⟩])[0]? =
        some ("cpu", q)
      ∧ (total_diff ⟨"cpu", 0, 0, 0, 0⟩ ⟨"cpu", 50, 0, 50, 100⟩ ≠ 0 →
          q = 100 * ((total_diff ⟨"cpu", 0, 0, 0, 0⟩ ⟨"cpu", 50, 0, 50, 100⟩ : ℚ)
                - (idle_diff ⟨"cpu", 0, 0, 0, 0⟩ ⟨"cpu", 50, 0, 50, 100⟩ : ℚ))
              / (total_diff ⟨"cpu", 0, 0, 0, 0⟩ ⟨"cpu", 50, 0, 50, 100⟩ : ℚ))
      ∧ (total_diff ⟨"cpu", 0, 0, 0, 0⟩ ⟨"cpu", 50, 0, 50, 100⟩ = 0 → q = 0)
      ∧ 0 ≤ q)
    ∧ calculate_load [⟨"cpu", 0, 0, 0, 0⟩] [⟨"cpu", 50, 0, 50, 100⟩] = [("cpu", 50)]
    ∧ calculate_load [⟨"cpu", 50, 0, 50, 100⟩] [⟨"cpu", 50, 0, 50, 100⟩] = [("cpu", 0)] := by
  refine ⟨?_, ?_, ?_⟩
  · exact calculate_load_spec [⟨"cpu", 0, 0, 0, 0⟩] [⟨"cpu", 50, 0, 50, 100⟩] 0
      (by decide) (by decide) (by decide) (by decide) (by decide) (by decide)
  · show [calc_load ⟨"cpu", 0, 0, 0, 0⟩ ⟨"cpu", 50, 0, 50, 100⟩] = [("cpu", 50)]
    rw [calc_load, if_pos (by decide)]
    norm_num [total_diff, idle_diff]
  · show [calc_load ⟨"cpu", 50, 0, 50, 100⟩ ⟨"cpu", 50, 0, 50, 100⟩] = [("cpu", 0)]
    rw [calc_load, if_neg (by decide)]

/-! ## Command builder: CPU clock speed limits
(`cpu_management.py`, `CPUManager.apply_cpu_clock_speed_limits`, lines 875–974) -/

/-- The per-thread widget state the apply loop reads: the checkbutton and the
(already `int()`-truncated) scale values of `validate_and_get_speeds`, plus
the two resolved scaling files (`cpu_files['scaling_max_files'].get(i)` /
`['scaling_min_files'].get(i)`, `None` when unresolved). -/
structure ThreadControls where
  checkbutton_active : Bool
  min_value : Int
  max_value : Int
  scaling_max_file : Option String
  scaling_min_file : Option String
deriving Repr, DecidableEq

/-- `validate_and_get_speeds` (lines 892–902): accepts exactly
`0 <= min_speed <= max_speed <= 6000`, returns `None` (logging a validation
error) otherwise — no clamping. -/
def validate_and_get_speeds (min_speed max_speed : Int) : Option (Int × Int) :=
  if 0 ≤ min_speed ∧ min_speed ≤ max_speed ∧ max_speed ≤ 6000 then
    some (min_speed, max_speed)
  else
    none

/-- The `echo <value> | tee <file> > /dev/null` command shape of
`get_frequency_commands` (lines 912–913). -/
def freq_tee_command (value : Int) (file : String) : String :=
  "echo " ++ toString value ++ " | tee " ++ file ++ " > /dev/null"

/-- `get_frequency_commands` (lines 904–915): converts MHz to kHz by `* 1000`
and builds the (max, min) command pair when both scaling files are resolved
(the stored paths are never empty strings, so Python truthiness is
`Option.isSome` here). -/
def get_frequency_commands (min_speed max_speed : Int)
    (max_file min_file : Option String) : Option (String × String) :=
  match max_file, min_file with
  | some mf, some nf =>
      some (freq_tee_command (max_speed * 1000) mf, freq_tee_command (min_speed * 1000) nf)
  | _, _ => none

/-- The body of the per-thread loop (lines 940–959): the commands a thread
contributes to `command_list`. `none` models
`retrieve_widgets_for_thread` failing (widgets missing, thread skipped). -/
def thread_commands (t : Option ThreadControls) : List String :=
  match t with
  | none => []
  | some t =>
      if t.checkbutton_active then
        match validate_and_get_speeds t.min_value t.max_value with
        | none => []
        | some (min_speed, max_speed) =>
            match get_frequency_commands min_speed max_speed
                t.scaling_max_file t.scaling_min_file with
            | none => []
            | some (max_command, min_command) => [max_command, min_command]
      else []

/-- Whether the loop body signals a validation failure for this thread (the
`logger.error` of `validate_and_get_speeds`, line 897). -/
def thread_validation_failed (t : Option ThreadControls) : Bool :=
  match t with
  | none => false
  | some t =>
      t.checkbutton_active && (validate_and_get_speeds t.min_value t.max_value).isNone

/-- The full `command_list` of `apply_cpu_clock_speed_limits` over all
threads, in thread order. -/
def apply_cpu_clock_speed_limits_command_list
    (threads : List (Option ThreadControls)) : List String :=
  threads.flatMap thread_commands

/-! ## Command builder: CPU governor
(`cpu_management.py`, `CPUManager.set_cpu_governor`, lines 1001–1067, and
`valid_governors`, lines 70–77) -/

/-- The `valid_governors` frozenset (lines 70–77). -/
def valid_governors : List String :=
  ["conservative", "ondemand", "performance", "powersave", "schedutil", "userspace"]

/-- One governor write command (line 1021):
`echo "<governor>" | sudo tee <file> > /dev/null`. -/
def governor_tee_command (governor file : String) : String :=
  "echo \"" ++ governor ++ "\" | sudo tee " ++ file ++ " > /dev/null"

/-- `set_cpu_governor.get_command_list` (lines 1015–1022): one command per
thread index below `thread_count` whose governor file is resolved. -/
def governor_get_command_list (governor : String)
    (governor_files : Nat → Option String) (thread_count : Nat) : List String :=
  (List.range thread_count).flatMap (fun i =>
    match governor_files i with
    | some governor_file => [governor_tee_command governor governor_file]
    | none => [])

/-- The outcome of `set_cpu_governor` as the caller observes it. -/
inductive GovernorOutcome where
  | ignored
  | invalidSelection
  | noFiles
  | execute (full_command : String)
deriving Repr, DecidableEq

/-- `CPUManager.set_cpu_governor` (lines 1043–1063): a missing selection or
the placeholder is ignored; a governor in `valid_governors` has its command
list built and, when non-empty, joined with `&&` and run via pkexec
(`noFiles` models the `logger.error` branch at line 1058); anything else is
rejected (`logger.error`, dropdown reset) before any command is built. -/
def set_cpu_governor (selected : Option String)
    (governor_files : Nat → Option String) (thread_count : Nat) : GovernorOutcome :=
  match selected with
  | none => .ignored
  | some selected_governor =>
      if selected_governor = "Select Governor" then .ignored
      else if selected_governor ∈ valid_governors then
        let command_list := governor_get_command_list selected_governor governor_files thread_count
        if command_list ≠ [] then
          .execute (String.intercalate " && " command_list)
        else
          .noFiles
      else .invalidSelection

/-! ## Claim theorems: C1 (clock speed limits) and C8 (governor validation) -/

/-- C1: for every enabled thread with both scaling paths resolved, valid
speeds `0 <= min <= max <= 6000` contribute exactly two commands whose
written values are `max * 1000` and `min * 1000` kHz (max first, as the
source appends `[max_command, min_command]`), with no validation failure;
`min > max` or a value outside `[0, 6000]` contributes no commands and
signals a validation failure — never a clamped write. -/
theorem apply_cpu_clock_speed_limits_spec (t : ThreadControls)
    (hactive : t.checkbutton_active = true)
    (mf nf : String)
    (hmaxf : t.scaling_max_file = some mf) (hminf : t.scaling_min_file = some nf) :
    ((0 ≤ t.min_value ∧ t.min_value ≤ t.max_value ∧ t.max_value ≤ 6000) →
      thread_commands (some t) =
        ["echo " ++ toString (t.max_value * 1000) ++ " | tee " ++ mf ++ " > /dev/null",
         "echo " ++ toString (t.min_value * 1000) ++ " | tee " ++ nf ++ " > /dev/null"]
      ∧ thread_validation_failed (some t) = false)
    ∧ (¬(0 ≤ t.min_value ∧ t.min_value ≤ t.max_value ∧ t.max_value ≤ 6000) →
      thread_commands (some t) = [] ∧ thread_validation_failed (some t) = true) := by
  constructor
  · intro hvalid
    constructor
    · rw [thread_commands, hactive, if_pos rfl, validate_and_get_speeds, if_pos hvalid]
      simp only []
      rw [show get_frequency_commands t.min_value t.max_value t.scaling_max_file
            t.scaling_min_file =
          some (freq_tee_command (t.max_value * 1000) mf,
            freq_tee_command (t.min_value * 1000) nf) by
        rw [hmaxf, hminf]; rfl]
      rfl
    · rw [thread_validation_failed, hactive, validate_and_get_speeds, if_pos hvalid]
      rfl
  · intro hinvalid
    constructor
    · rw [thread_commands, hactive, if_pos rfl, validate_and_get_speeds, if_neg hinvalid]
    · rw [thread_validation_failed, hactive, validate_and_get_speeds, if_neg hinvalid]
      rfl

/-- Witness for `apply_cpu_clock_speed_limits_spec`: a thread at
`min = 1000, max = 4000` MHz yields the two kHz writes; the same thread at
`min = 5000, max = 4000` yields none and signals the failure. -/
theorem apply_cpu_clock_speed_limits_spec_witness :
    (thread_commands (some ⟨true, 1000, 4000, some "/sys/f_max", some "/sys/f_min"⟩) =
      ["echo 4000000 | tee /sys/f_max > /dev/null",
       "echo 1000000 | tee /sys/f_min > /dev/null"]
    ∧ thread_validation_failed
        (some ⟨true, 1000, 4000, some "/sys/f_max", some "/sys/f_min"⟩) = false)
    ∧ (thread_commands (some ⟨true, 5000, 4000, some "/sys/f_max", some "/sys/f_min"⟩) = []
    ∧ thread_validation_failed
        (some ⟨true, 5000, 4000, some "/sys/f_max", some "/sys/f_min"⟩) = true) := by
  constructor
  · have h := (apply_cpu_clock_speed_limits_spec
      ⟨true, 1000, 4000, some "/sys/f_max", some "/sys/f_min"⟩ rfl
      "/sys/f_max" "/sys/f_min" rfl rfl).1 (by norm_num)
    exact h
  · exact (apply_cpu_clock_speed_limits_spec
      ⟨true, 5000, 4000, some "/sys/f_max", some "/sys/f_min"⟩ rfl
      "/sys/f_max" "/sys/f_min" rfl rfl).2 (by norm_num)

/-- Counting lemma: the governor command list has one entry per resolved
thread index. -/
theorem governor_get_command_list_length (governor : String)
    (governor_files : Nat → Option String) (thread_count : Nat) :
    (governor_get_command_list governor governor_files thread_count).length =
      ((List.range thread_count).filter (fun i => (governor_files i).isSome)).length := by
  rw [governor_get_command_list]
  induction thread_count with
  | zero => simp
  | succ m ih =>
      rw [List.range_succ, List.flatMap_append, List.length_append,
        List.filter_append, List.length_append, ih]
      cases h : governor_files m <;> simp [h]

/-- C8: `set_cpu_governor` builds write commands only for a selection in the
fixed set `{conservative, ondemand, performance, powersave, schedutil,
userspace}`; a valid governor yields exactly one write command per thread
with a resolved governor file (run joined with `&&`), and an out-of-set
string is rejected with zero commands produced. -/
theorem set_cpu_governor_validation (gov : String)
    (governor_files : Nat → Option String) (thread_count : Nat) :
    (gov ∉ valid_governors →
      set_cpu_governor (some gov) governor_files thread_count = .ignored
      ∨ set_cpu_governor (some gov) governor_files thread_count = .invalidSelection)
    ∧ (gov ∈ valid_governors →
        (governor_get_command_list gov governor_files thread_count ≠ [] →
          set_cpu_governor (some gov) governor_files thread_count =
            .execute (String.intercalate " && "
              (governor_get_command_list gov governor_files thread_count)))
        ∧ (governor_get_command_list gov governor_files thread_count = [] →
          set_cpu_governor (some gov) governor_files thread_count = .noFiles))
    ∧ (governor_get_command_list gov governor_files thread_count).length =
        ((List.range thread_count).filter (fun i => (governor_files i).isSome)).length
    ∧ set_cpu_governor (some "turbo-boost") governor_files thread_count = .invalidSelection := by
  refine ⟨?_, ?_, governor_get_command_list_length gov governor_files thread_count, ?_⟩
  · intro hnot
    by_cases hsel : gov = "Select Governor"
    · left; rw [set_cpu_governor, if_pos hsel]
    · right; rw [set_cpu_governor, if_neg hsel, if_neg hnot]
  · intro hmem
    have hsel : gov ≠ "Select Governor" := by
      intro h; subst h; revert hmem; decide
    constructor
    · intro hne
      rw [set_cpu_governor, if_neg hsel, if_pos hmem]
      simp only [if_pos hne]
    · intro heq
      rw [set_cpu_governor, if_neg hsel, if_pos hmem]
      simp [heq]
  · rw [set_cpu_governor, if_neg (by decide), if_neg (by decide)]

/-- Witness for `set_cpu_governor_validation`: with governor files resolved
for thread 0 only (of 2), `"performance"` executes exactly one command and
`"turbo-boost"` is rejected. -/
theorem set_cpu_governor_validation_witness :
    set_cpu_governor (some "performance")
        (fun i => if i = 0 then some "/sys/gov0" else none) 2 =
      .execute "echo \"performance\" | sudo tee /sys/gov0 > /dev/null"
    ∧ (governor_get_command_list "performance"
        (fun i => if i = 0 then some "/sys/gov0" else none) 2).length = 1
    ∧ set_cpu_governor (some "turbo-boost")
        (fun i => if i = 0 then some "/sys/gov0" else none) 2 = .invalidSelection := by
  have h := set_cpu_governor_validation "performance"
    (fun i => if i = 0 then some "/sys/gov0" else none) 2
  refine ⟨?_, ?_, h.2.2.2⟩
  · have hx := (h.2.1 (by decide)).1 (by decide)
    rw [hx]
    rfl
  · rw [h.2.2.1]
    decide

/-! ## The `cpu_files` role table
(`cpu_file_search.py`, `CPUFileSearch.__init__`, lines 127–144)

`self.cpu_files` is a dict whose keys are exactly the eight
`cpufreq_file_paths` keys plus `'package_throttle_time_files'` and
`'energy_perf_bias_files'`; each value maps a thread index to a resolved
absolute path. No other key is ever added (`find_energy_perf_bias_files`,
lines 408–427, populates only `'energy_perf_bias_files'`). -/

structure CpuFiles where
  governor_files : Nat → Option String
  speed_files : Nat → Option String
  scaling_max_files : Nat → Option String
  scaling_min_files : Nat → Option String
  cpuinfo_max_files : Nat → Option String
  cpuinfo_min_files : Nat → Option String
  available_governors_files : Nat → Option String
  boost_files : Nat → Option String
  package_throttle_time_files : Nat → Option String
  energy_perf_bias_files : Nat → Option String

/-- Dict lookup on `self.cpu_files`: defined on exactly the keys of
lines 127–144, `none` (a Python `KeyError`) on any other key. -/
def CpuFiles.lookup (t : CpuFiles) : String → Option (Nat → Option String)
  | "governor_files" => some t.governor_files
  | "speed_files" => some t.speed_files
  | "scaling_max_files" => some t.scaling_max_files
  | "scaling_min_files" => some t.scaling_min_files
  | "cpuinfo_max_files" => some t.cpuinfo_max_files
  | "cpuinfo_min_files" => some t.cpuinfo_min_files
  | "available_governors_files" => some t.available_governors_files
  | "boost_files" => some t.boost_files
  | "package_throttle_time_files" => some t.package_throttle_time_files
  | "energy_perf_bias_files" => some t.energy_perf_bias_files
  | _ => none

/-! ## Command builder: energy-perf-bias
(`cpu_management.py`, `CPUManager.set_energy_perf_bias`, lines 1326–1395) -/

/-- The `valid_bias_values` frozenset (line 1375). -/
def valid_bias_values : List Int := [0, 4, 6, 8, 15]

/-- One EPB write command (line 1346). -/
def epb_tee_command (bias_value : Int) (file : String) : String :=
  "echo \"" ++ toString bias_value ++ "\" | sudo tee " ++ file ++ " > /dev/null"

/-- `set_energy_perf_bias.get_command_list` (lines 1339–1347): reads
`self.cpu_file_search.cpu_files['epb_files']` — a key the table never has —
so the lookup raises `KeyError` (`.error`); with a table that did have the
key it would emit one command per thread with a resolved file. -/
def epb_get_command_list (bias_value : Int) (cpu_files : CpuFiles)
    (thread_count : Nat) : Except String (List String) :=
  match cpu_files.lookup "epb_files" with
  | none => .error "KeyError: epb_files"
  | some epb_files =>
      .ok ((List.range thread_count).flatMap (fun i =>
        match epb_files i with
        | some bias_file => [epb_tee_command bias_value bias_file]
        | none => []))

/-- Python `str.split()` keeps maximal runs of non-whitespace; `split()[0]`
is the first such run (the dropdown strings here use plain spaces). Written
over the character list so the kernel can evaluate it. -/
def py_split_head (s : String) : List Char :=
  (s.data.dropWhile (fun c => c = ' ')).takeWhile (fun c => c ≠ ' ')

/-- All-digit parse of a non-empty character run, the core of Python `int`. -/
def parse_digits (cs : List Char) : Option Nat :=
  if cs = [] then none
  else
    cs.foldl
      (fun acc c =>
        acc.bind (fun n => if c.isDigit then some (n * 10 + (c.toNat - 48)) else none))
      (some 0)

/-- Python `int(str)` on an already-stripped token: an optional sign then
decimal digits; anything else raises `ValueError` (`none`). -/
def py_int (s : List Char) : Option Int :=
  match s with
  | '-' :: rest => (parse_digits rest).map (fun n => -(n : Int))
  | '+' :: rest => (parse_digits rest).map (fun n => (n : Int))
  | _ => (parse_digits s).map (fun n => (n : Int))

/-- The outcome of `set_energy_perf_bias` as the caller observes it.
`exceptionCaught` is the outer `except Exception` handler (lines 1393–1395),
which logs and re-enables the dropdown without building any command. -/
inductive EpbOutcome where
  | ignored
  | invalidValue
  | noFiles
  | execute (full_command : String)
  | exceptionCaught (message : String)
deriving Repr, DecidableEq

/-- `CPUManager.set_energy_perf_bias` (lines 1326–1395): placeholder/no
selection ignored; `bias_value = int(selected_bias.split()[0])`; values in
`{0, 4, 6, 8, 15}` proceed to `get_command_list` (whose `KeyError` the outer
handler catches), others are rejected before any command is built. -/
def set_energy_perf_bias (selected_bias : Option String) (cpu_files : CpuFiles)
    (thread_count : Nat) : EpbOutcome :=
  match selected_bias with
  | none => .ignored
  | some selected =>
      if selected = "Select Energy Performance Bias" then .ignored
      else
        match py_int (py_split_head selected) with
        | none => .exceptionCaught "ValueError"
        | some bias_value =>
            if bias_value ∈ valid_bias_values then
              match epb_get_command_list bias_value cpu_files thread_count with
              | .error e => .exceptionCaught e
              | .ok [] => .noFiles
              | .ok command_list => .execute (String.intercalate " && " command_list)
            else .invalidValue

/-! ## Claim theorem: C5 (energy-perf-bias, a code bug)

The claim says a valid selection emits one write per thread with a resolved
`energy_perf_bias` file. The code reads `cpu_files['epb_files']`, but
`CPUFileSearch` populates the key `'energy_perf_bias_files'` and the table
has no `'epb_files'` key, so every valid selection ends in the exception
handler with zero commands built. -/

/-- C5 (failing evaluation): for every table (whatever
`energy_perf_bias_files` it resolved), every thread count, and every
selection that parses to a valid bias value, `set_energy_perf_bias` raises
`KeyError` on `'epb_files'` and builds no commands — even though the
resolved files sit under `'energy_perf_bias_files'`. An invalid value is
still rejected before any lookup. -/
theorem set_energy_perf_bias_keyerror (cpu_files : CpuFiles) (thread_count : Nat)
    (selected : String) (bias_value : Int)
    (hplaceholder : selected ≠ "Select Energy Performance Bias")
    (hparse : py_int (py_split_head selected) = some bias_value) :
    (bias_value ∈ valid_bias_values →
      set_energy_perf_bias (some selected) cpu_files thread_count =
        .exceptionCaught "KeyError: epb_files")
    ∧ (bias_value ∉ valid_bias_values →
      set_energy_perf_bias (some selected) cpu_files thread_count = .invalidValue)
    ∧ cpu_files.lookup "epb_files" = none
    ∧ cpu_files.lookup "energy_perf_bias_files" = some cpu_files.energy_perf_bias_files := by
  refine ⟨?_, ?_, rfl, rfl⟩
  · intro hvalid
    rw [set_energy_perf_bias, if_neg hplaceholder, hparse]
    simp only [if_pos hvalid]
    rfl
  · intro hinvalid
    rw [set_energy_perf_bias, if_neg hplaceholder, hparse]
    simp only [if_neg hinvalid]

/-- Witness for `set_energy_perf_bias_keyerror`: the dropdown string
`"0 (Performance)"` (bias 0, a member of the valid set) against a table whose
`energy_perf_bias_files` resolved a file for thread 0 ends in the caught
`KeyError`, with no command built. -/
theorem set_energy_perf_bias_keyerror_witness :
    set_energy_perf_bias (some "0 (Performance)")
      ⟨fun _ => none, fun _ => none, fun _ => none, fun _ => none, fun _ => none,
       fun _ => none, fun _ => none, fun _ => none, fun _ => none,
       fun i => if i = 0 then some "/sys/devices/system/cpu/cpu0/power/energy_perf_bias"
         else none⟩ 2 =
      .exceptionCaught "KeyError: epb_files" := by
  exact (set_energy_perf_bias_keyerror _ 2 "0 (Performance)" 0
    (by decide) (by decide)).1 (by decide)

/-! ## Locator startup: loading the persisted path table
(`cpu_file_search.py`, `CPUFileSearch.__init__` lines 161–166,
`load_paths_from_cache` lines 168–180, `validate_loaded_paths` lines 182–198,
`initialize_cpu_files` lines 200–232) -/

/-- The fields `load_paths_from_cache` reads from the persisted cache object.
`validate_loaded_paths` consults only `cpu_directory`, the values of
`cpu_files['scaling_max_files']` (kept here as the loaded index–path pairs),
`proc_files['stat']` and `package_temp_file`; the other loaded roles are
carried but never validated. -/
structure CachedDirectories where
  cpu_directory : Option String
  intel_boost_path : Option String
  package_temp_file : Option String
  proc_stat : Option String
  proc_cpuinfo : Option String
  proc_meminfo : Option String
  scaling_max_files : List (Nat × String)
deriving Repr, DecidableEq

/-- `validate_loaded_paths` (lines 182–198): the `errors` list it accumulates.
Each check is Python truthiness (`if not self.cpu_directory`,
`if not any(...values())`, ...); `os.path.exists` is never called, so no
check consults the filesystem. -/
def validate_loaded_paths (c : CachedDirectories) : List String :=
  (if ¬ pyTruthy c.cpu_directory then ["CPU directory is not set."] else []) ++
  (if ¬ (c.scaling_max_files.any (fun kv => kv.2 ≠ "")) then
    ["Min or max frequency files are not set for any thread."] else []) ++
  (if ¬ pyTruthy c.proc_stat then ["/proc/stat file is not set."] else []) ++
  (if ¬ pyTruthy c.package_temp_file then ["Package temperature file is not set."] else [])

/-- What `CPUFileSearch.__init__` ends in: the loaded table kept
(`loaded`), the `RuntimeError` raised by `validate_loaded_paths`
(`abortedRuntimeError` — nothing in `__init__` or `load_paths_from_cache`
catches it), or the full re-discovery `initialize_cpu_files`
(`rediscovered`, taken only when no cache file loaded at all). -/
inductive InitOutcome where
  | loaded (c : CachedDirectories)
  | abortedRuntimeError (errors : List String)
  | rediscovered
deriving Repr, DecidableEq

/-- `CPUFileSearch.__init__` lines 161–166: load the cache file; if present,
`load_paths_from_cache` (which ends in `validate_loaded_paths`); only an
absent/unreadable cache goes to `initialize_cpu_files`. `file_exists` is the
ambient filesystem: the entire load/validate path never consults it. -/
def cpu_file_search_init (file_exists : String → Bool)
    (cached : Option CachedDirectories) : InitOutcome :=
  match cached with
  | some c =>
      if validate_loaded_paths c = [] then .loaded c
      else .abortedRuntimeError (validate_loaded_paths c)
  | none => .rediscovered

/-! ## Claim theorems: C4 (stale-cache validation) -/

/-- The concrete loaded table of the C4 counterexample: all four validated
fields are set, and `/proc/stat` points at a path that does not exist in the
ambient filesystem (`fun _ => false`). -/
def staleCachedDirectories : CachedDirectories :=
  { cpu_directory := some "/sys/devices/system/cpu"
    intel_boost_path := none
    package_temp_file := some "/sys/class/hwmon/hwmon1/temp1_input"
    proc_stat := some "/proc/stat"
    proc_cpuinfo := some "/proc/cpuinfo"
    proc_meminfo := some "/proc/meminfo"
    scaling_max_files := [(0, "/sys/devices/system/cpu/cpu0/cpufreq/scaling_max_freq")] }

/-- C4 counterexample: a persisted table whose `/proc/stat` path points to a
nonexistent file (the filesystem has no files at all) is loaded and kept —
validation passes, no re-discovery is triggered, and the system operates on
the stale path. This contradicts the claim that such a load must trigger a
full re-discovery. -/
theorem cached_paths_stale_stat_no_rediscovery :
    cpu_file_search_init (fun _ => false) (some staleCachedDirectories) =
      .loaded staleCachedDirectories
    ∧ InitOutcome.loaded staleCachedDirectories ≠ .rediscovered := by
  constructor
  · rfl
  · decide

/-- C4 (amended): loading from a persisted cache validates only that the CPU
directory, at least one `scaling_max_freq` value, the `/proc/stat` path and
the package temperature file are *set* (Python-truthy); a failed validation
raises `RuntimeError` — aborting initialization, never re-discovering — and
the outcome is independent of the ambient filesystem, so a set-but-nonexistent
`/proc/stat` path is operated on. -/
theorem cached_paths_validation_behaviour (file_exists other_fs : String → Bool)
    (c : CachedDirectories) :
    cpu_file_search_init file_exists (some c) ≠ .rediscovered
    ∧ (validate_loaded_paths c ≠ [] →
        cpu_file_search_init file_exists (some c) =
          .abortedRuntimeError (validate_loaded_paths c))
    ∧ (validate_loaded_paths c = [] →
        cpu_file_search_init file_exists (some c) = .loaded c)
    ∧ cpu_file_search_init file_exists (some c) = cpu_file_search_init other_fs (some c)
    ∧ (validate_loaded_paths c = [] ↔
        (pyTruthy c.cpu_directory = true
          ∧ c.scaling_max_files.any (fun kv => kv.2 ≠ "") = true
          ∧ pyTruthy c.proc_stat = true
          ∧ pyTruthy c.package_temp_file = true)) := by
  refine ⟨?_, ?_, ?_, rfl, ?_⟩
  · rw [cpu_file_search_init]
    split <;> simp
  · intro hne
    rw [cpu_file_search_init, if_neg hne]
  · intro heq
    rw [cpu_file_search_init, if_pos heq]
  · rw [validate_loaded_paths]
    constructor
    · intro h
      by_cases h1 : pyTruthy c.cpu_directory = true <;>
        by_cases h2 : c.scaling_max_files.any (fun kv => kv.2 ≠ "") = true <;>
        by_cases h3 : pyTruthy c.proc_stat = true <;>
        by_cases h4 : pyTruthy c.package_temp_file = true <;>
        simp_all
    · rintro ⟨h1, h2, h3, h4⟩
      rw [if_neg (not_not_intro h1), if_neg (not_not_intro h2),
        if_neg (not_not_intro h3), if_neg (not_not_intro h4)]
      rfl

/-- Witness for `cached_paths_validation_behaviour`: a cached table with no
`/proc/stat` entry fails validation and aborts with the `RuntimeError`
(rather than re-discovering). -/
theorem cached_paths_validation_behaviour_witness :
    cpu_file_search_init (fun _ => true)
        (some { staleCachedDirectories with proc_stat := none }) =
      .abortedRuntimeError ["/proc/stat file is not set."]
    ∧ cpu_file_search_init (fun _ => true)
        (some { staleCachedDirectories with proc_stat := none }) ≠ .rediscovered := by
  have h := cached_paths_validation_behaviour (fun _ => true) (fun _ => false)
    { staleCachedDirectories with proc_stat := none }
  refine ⟨?_, h.1⟩
  have hv : validate_loaded_paths { staleCachedDirectories with proc_stat := none } =
      ["/proc/stat file is not set."] := by decide
  rw [h.2.1 (by rw [hv]; decide), hv]

/-! ## Command builder: Ryzen TDP
(`cpu_management.py`, `set_ryzen_tdp.create_tdp_command`, lines 1215–1220) -/

/-- Python `int()` on a rational (the `tdp_scale` float value): truncation
toward zero. -/
def py_int_of_rat (q : ℚ) : Int :=
  if 0 ≤ q then ⌊q⌋ else ⌈q⌉

/-- `create_tdp_command` (lines 1215–1220): watts × 1000 truncated to integer
milliwatts, substituted into the fixed shell pipeline f-string. Returns the
command and `tdp_value_milliwatts` as the source does. -/
def create_tdp_command (tdp_value_watts : ℚ) : String × Int :=
  let tdp_value_milliwatts := py_int_of_rat (tdp_value_watts * 1000)
  ("printf '%0*x' 48 " ++ toString tdp_value_milliwatts ++
    " | fold -w 2 | tac | tr -d '\\n' | xxd -r -p | sudo tee /sys/kernel/ryzen_smu_drv/smu_args" ++
    " && printf '\\x53' | sudo tee /sys/kernel/ryzen_smu_drv/rsmu_cmd",
   tdp_value_milliwatts)

/-- Modelled from the shell pipeline of `create_tdp_command`:
`printf '%0*x' 48 N` prints `N` as (at least) 48 zero-padded lowercase hex
digits; this is their big-endian digit-value list for `N < 16^48`. -/
def hex_digits_be (n : Nat) : Nat → List Nat
  | 0 => []
  | w + 1 => (n / 16 ^ w % 16) :: hex_digits_be n w

/-- Modelled from the shell pipeline: `fold -w 2` splits the digit stream
into consecutive two-digit groups, and `xxd -r -p` reads each group as one
byte (high digit first). -/
def pair_bytes : List Nat → List Nat
  | d1 :: d2 :: rest => (16 * d1 + d2) :: pair_bytes rest
  | _ => []

/-- Modelled from the shell pipeline of `create_tdp_command`: the byte
stream written to `smu_args` — the 48 hex digits of the milliwatt value,
paired into bytes and reversed by `tac` (so least-significant byte first). -/
def smu_args_byte_stream (n : Nat) : List Nat :=
  (pair_bytes (hex_digits_be n 48)).reverse

/-- Big-endian byte list of `n` over `w` bytes: what `pair_bytes` of the
`2 * w` hex digits amounts to. -/
def bytes_be (n : Nat) : Nat → List Nat
  | 0 => []
  | w + 1 => (n / 256 ^ w % 256) :: bytes_be n w

theorem pair_bytes_hex_digits (n w : Nat) :
    pair_bytes (hex_digits_be n (2 * w)) = bytes_be n w := by
  induction w with
  | zero => rfl
  | succ v ih =>
      have h2 : 2 * (v + 1) = (2 * v + 1) + 1 := by omega
      rw [h2, hex_digits_be, hex_digits_be, pair_bytes, ih, bytes_be]
      congr 1
      have h16 : (16 : Nat) ^ (2 * v) = 256 ^ v := by
        rw [pow_mul]
        norm_num
      have h161 : (16 : Nat) ^ (2 * v + 1) = 16 * 256 ^ v := by
        rw [pow_succ, h16]
        ring
      rw [h16, h161]
      have hm : n / (16 * 256 ^ v) = n / 256 ^ v / 16 := by
        rw [Nat.div_div_eq_div_mul]
        ring_nf
      rw [hm]
      omega

theorem bytes_be_reverse (n w : Nat) :
    (bytes_be n w).reverse = (List.range w).map (fun k => n / 256 ^ k % 256) := by
  induction w with
  | zero => rfl
  | succ v ih =>
      rw [bytes_be, List.reverse_cons, ih, List.range_succ, List.map_append]
      rfl

/-- The byte stream is exactly the 24 little-endian base-256 digits. -/
theorem smu_args_byte_stream_eq (n : Nat) :
    smu_args_byte_stream n = (List.range 24).map (fun k => n / 256 ^ k % 256) := by
  rw [smu_args_byte_stream, show (48 : Nat) = 2 * 24 by norm_num,
    pair_bytes_hex_digits, bytes_be_reverse]

/-! ## Claim theorems: C9 (Ryzen TDP protocol) -/

/-- C9 counterexample: at 5 W the milliwatt value is 5000 and the hex stream
written to `smu_args` is 24 bytes (48 hex digits), not the claimed 6 bytes. -/
theorem ryzen_tdp_stream_not_six_bytes :
    (create_tdp_command 5).2 = 5000
    ∧ (smu_args_byte_stream 5000).length = 24
    ∧ (24 : Nat) ≠ 6 := by
  refine ⟨?_, ?_, by norm_num⟩
  · show py_int_of_rat (5 * 1000) = 5000
    rw [py_int_of_rat, if_pos (by norm_num)]
    norm_num
  · rw [smu_args_byte_stream_eq]
    simp

/-- C9 (amended): `create_tdp_command` converts watts to truncated integer
milliwatts (watts × 1000) and builds one command that first pipes the value,
rendered as 48 zero-padded hex digits byte-reversed into a **24-byte**
little-endian stream, into the SMU args file, and then (after `&&`) writes
the fixed command byte `\x53` to the SMU command file — a two-step protocol
in that order. -/
theorem ryzen_tdp_protocol (tdp_value_watts : ℚ) (hnn : 0 ≤ tdp_value_watts) :
    (create_tdp_command tdp_value_watts).2 = ⌊tdp_value_watts * 1000⌋
    ∧ (create_tdp_command tdp_value_watts).1 =
        ("printf '%0*x' 48 " ++ toString (create_tdp_command tdp_value_watts).2 ++
          " | fold -w 2 | tac | tr -d '\\n' | xxd -r -p" ++
          " | sudo tee /sys/kernel/ryzen_smu_drv/smu_args")
        ++ " && " ++
        ("printf '\\x53' | sudo tee /sys/kernel/ryzen_smu_drv/rsmu_cmd")
    ∧ (smu_args_byte_stream (create_tdp_command tdp_value_watts).2.toNat).length = 24
    ∧ (∀ k, k < 24 →
        (smu_args_byte_stream (create_tdp_command tdp_value_watts).2.toNat)[k]? =
          some ((create_tdp_command tdp_value_watts).2.toNat / 256 ^ k % 256)) := by
  refine ⟨?_, ?_, ?_, ?_⟩
  case refine_2 =>
    simp only [create_tdp_command, String.append_assoc]
    congr 1
  · show py_int_of_rat (tdp_value_watts * 1000) = ⌊tdp_value_watts * 1000⌋
    rw [py_int_of_rat, if_pos (by positivity)]
  · rw [smu_args_byte_stream_eq]
    simp
  · intro k hk
    rw [smu_args_byte_stream_eq]
    rw [List.getElem?_map, List.getElem?_range hk]
    rfl

/-- Witness for `ryzen_tdp_protocol` at 5 W: 5000 mW, byte stream of length
24 whose first byte is `0x88` (= 5000 % 256) and second `0x13`. -/
theorem ryzen_tdp_protocol_witness :
    (create_tdp_command 5).2 = ⌊(5 : ℚ) * 1000⌋
    ∧ (smu_args_byte_stream (create_tdp_command 5).2.toNat).length = 24
    ∧ (smu_args_byte_stream (create_tdp_command 5).2.toNat)[0]? =
        some ((create_tdp_command 5).2.toNat / 256 ^ 0 % 256) := by
  have h := ryzen_tdp_protocol 5 (by norm_num)
  exact ⟨h.1, h.2.2.1, h.2.2.2 0 (by norm_num)⟩

/-! ## Boot-script generator
(`apply_settings.py`, `SettingsApplier.create_apply_script`, lines 126–216,
and `SettingsApplier.create_pbo_command`, lines 218–235)

The generator re-reads the settings ledger and rebuilds a command per
recorded setting, appending section by section to `commands`; any exception
along the way reaches the handler at lines 214–216 and `create_apply_script`
returns `None` — no script is written. The whole flow is embedded:
frequency (lines 134–149), governor (151–158), boost (160–176), TDP
(178–184), PBO (186–188, via the applier's own `create_pbo_command`) and
EPB (190–198), then the empty-list check (200–202). -/

/-- The body of the frequency loop (lines 138–149): commands for one thread,
given the ledger's recorded speeds (`min_speeds.get(str(i))`, floats) and
the resolved scaling files. -/
def script_freq_thread_commands (min_speed max_speed : Option ℚ)
    (max_file min_file : Option String) : List String :=
  match min_speed, max_speed with
  | some min_s, some max_s =>
      match max_file, min_file with
      | some mf, some nf =>
          ["echo " ++ toString (py_int_of_rat (max_s * 1000)) ++ " | tee " ++ mf ++
            " > /dev/null",
           "echo " ++ toString (py_int_of_rat (min_s * 1000)) ++ " | tee " ++ nf ++
            " > /dev/null"]
      | _, _ => []
  | _, _ => []

/-- The frequency section of `create_apply_script` (lines 134–149). -/
def script_freq_commands (min_speeds max_speeds : Nat → Option ℚ)
    (scaling_max_files scaling_min_files : Nat → Option String)
    (thread_count : Nat) : List String :=
  (List.range thread_count).flatMap (fun i =>
    script_freq_thread_commands (min_speeds i) (max_speeds i)
      (scaling_max_files i) (scaling_min_files i))

/-- One governor write of the generated script (line 156):
`echo <governor> | tee <file> > /dev/null` — unquoted value, no `sudo`. -/
def script_governor_command (governor file : String) : String :=
  "echo " ++ governor ++ " | tee " ++ file ++ " > /dev/null"

/-- The governor section of `create_apply_script` (lines 151–158). -/
def script_governor_commands (governor : Option String)
    (governor_files : Nat → Option String) (thread_count : Nat) : List String :=
  match governor with
  | none => []
  | some gov =>
      if gov ≠ "" ∧ gov ≠ "Select Governor" then
        (List.range thread_count).flatMap (fun i =>
          match governor_files i with
          | some governor_file => [script_governor_command gov governor_file]
          | none => [])
      else []

/-- The boost section of `create_apply_script` (lines 160–176): per-thread
`boost` writes for the `"Other"` CPU type (value `1` = enabled), one
inverted write to the Intel `no_turbo` path otherwise. -/
def script_boost_commands (boost : Option Bool) (cpu_type : String)
    (boost_files : Nat → Option String) (intel_boost_path : Option String)
    (thread_count : Nat) : List String :=
  match boost with
  | none => []
  | some b =>
      if cpu_type = "Other" then
        (List.range thread_count).flatMap (fun i =>
          match boost_files i with
          | some boost_file =>
              ["echo " ++ (if b then "1" else "0") ++ " | tee " ++ boost_file ++
                " > /dev/null"]
          | none => [])
      else
        match intel_boost_path with
        | some boost_file =>
            ["echo " ++ (if b then "0" else "1") ++ " | tee " ++ boost_file ++
              " > /dev/null"]
        | none => []

/-- The TDP section of `create_apply_script` (lines 178–184): the ledger's
integer TDP value written to the Intel RAPL constraint file when resolved
(`int(tdp)` of a JSON int is the int itself). -/
def script_tdp_commands (tdp : Option Int) (intel_tdp_file : Option String) :
    List String :=
  match tdp with
  | none => []
  | some t =>
      match intel_tdp_file with
      | some tdp_file => ["echo " ++ toString t ++ " | tee " ++ tdp_file ++ " > /dev/null"]
      | none => []

/-- `SettingsApplier.create_pbo_command` (lines 218–235): its first
statement (line 221) evaluates `self.parse_cpu_info`, but `SettingsApplier`
defines no `parse_cpu_info` method — the method lives on `CPUManager` and
is never injected — so the attribute lookup raises `AttributeError` before
any command is built; lines 224–235 are unreachable on every call. -/
def applier_create_pbo_command (_offset_value : Int) : Except String String :=
  .error "AttributeError: parse_cpu_info"

/-- The PBO section of `create_apply_script` (lines 186–188): when a
`pbo_offset` is recorded, the applier's `create_pbo_command` is called —
which always raises (see `applier_create_pbo_command`), so the exception
propagates out of the section. -/
def script_pbo_commands (pbo_offset : Option Int) : Except String (List String) :=
  match pbo_offset with
  | none => .ok []
  | some offset_value =>
      match applier_create_pbo_command offset_value with
      | .error e => .error e
      | .ok command => .ok [command]

/-- The EPB section of `create_apply_script` (lines 190–198): a recorded,
non-placeholder selection is parsed with `int(epb.split()[0])`
(`ValueError` propagates), then each loop iteration reads
`cpu_files["epb_files"]` — a key the table never has (it holds
`energy_perf_bias_files`) — so with at least one thread the first iteration
raises `KeyError`. -/
def script_epb_commands (epb : Option String) (cpu_files : CpuFiles)
    (thread_count : Nat) : Except String (List String) :=
  match epb with
  | none => .ok []
  | some e =>
      if e ≠ "" ∧ e ≠ "Select Energy Performance Bias" then
        match py_int (py_split_head e) with
        | none => .error "ValueError"
        | some bias_value =>
            if thread_count = 0 then .ok []
            else
              match cpu_files.lookup "epb_files" with
              | none => .error "KeyError: epb_files"
              | some epb_files =>
                  .ok ((List.range thread_count).flatMap (fun i =>
                    match epb_files i with
                    | some bias_file =>
                        ["echo " ++ toString bias_value ++ " | tee " ++ bias_file ++
                          " > /dev/null"]
                    | none => []))
      else .ok []

/-- `SettingsApplier.create_apply_script` (lines 126–216), up to the command
list: the sections in source order, with an exception from the PBO or EPB
section (or the final `ValueError` for an empty list, lines 200–202)
reaching the handler at line 214 — `.error` means `create_apply_script`
returns `None` and no script is written. -/
def create_apply_script_commands (min_speeds max_speeds : Nat → Option ℚ)
    (scaling_max_files scaling_min_files : Nat → Option String)
    (governor : Option String) (governor_files : Nat → Option String)
    (boost : Option Bool) (cpu_type : String) (boost_files : Nat → Option String)
    (intel_boost_path : Option String) (tdp : Option Int)
    (intel_tdp_file : Option String) (pbo_offset : Option Int)
    (epb : Option String) (cpu_files : CpuFiles) (thread_count : Nat) :
    Except String (List String) :=
  let commands :=
    script_freq_commands min_speeds max_speeds scaling_max_files scaling_min_files
      thread_count
    ++ script_governor_commands governor governor_files thread_count
    ++ script_boost_commands boost cpu_type boost_files intel_boost_path thread_count
    ++ script_tdp_commands tdp intel_tdp_file
  match script_pbo_commands pbo_offset with
  | .error e => .error e
  | .ok pbo_commands =>
      match script_epb_commands epb cpu_files thread_count with
      | .error e => .error e
      | .ok epb_commands =>
          let commands := commands ++ pbo_commands ++ epb_commands
          if commands = [] then .error "ValueError: No commands to execute."
          else .ok commands

/-! ## Claim theorems: C6 (boot script vs live command sequences) -/

/-- C6 counterexample: with governor `"performance"` recorded in the ledger
and one resolved governor file, the generated script's governor command is
`echo performance | tee ... > /dev/null` while the live apply path
(`set_cpu_governor.get_command_list`) produces
`echo "performance" | sudo tee ... > /dev/null` — the reconstructed command
sequence is not the live one. -/
theorem boot_script_governor_command_differs :
    script_governor_commands (some "performance")
        (fun i => if i = 0 then some "/sys/gov0" else none) 1 =
      ["echo performance | tee /sys/gov0 > /dev/null"]
    ∧ governor_get_command_list "performance"
        (fun i => if i = 0 then some "/sys/gov0" else none) 1 =
      ["echo \"performance\" | sudo tee /sys/gov0 > /dev/null"]
    ∧ script_governor_commands (some "performance")
        (fun i => if i = 0 then some "/sys/gov0" else none) 1 ≠
      governor_get_command_list "performance"
        (fun i => if i = 0 then some "/sys/gov0" else none) 1 := by
  refine ⟨by decide, by decide, by decide⟩

/-- Integer-valued rationals pass through Python `int()` unchanged. -/
theorem py_int_of_rat_intCast (k : Int) : py_int_of_rat (k : ℚ) = k := by
  rw [py_int_of_rat]
  split
  · exact Int.floor_intCast k
  · exact Int.ceil_intCast k

/-- C6 (amended): the generator reproduces the live frequency write commands
exactly (for the integer speeds the live path validated); but it does not
reconstruct the live command sequences: the governor write differs from the
live one for every governor and file (the live path quotes the value and
elevates with `sudo tee`, the script write does neither), the applier's
`create_pbo_command` raises `AttributeError` on every call (`SettingsApplier`
has no `parse_cpu_info` method), so a recorded PBO offset aborts
`create_apply_script` entirely — no script is generated at all — and a
recorded EPB selection likewise raises `KeyError` on the nonexistent
`'epb_files'` key whenever there is at least one thread. -/
theorem boot_script_not_live_reproduction (min_v max_v : Int) (mf nf : String)
    (gov f : String) (offset_value : Int)
    (min_speeds max_speeds : Nat → Option ℚ)
    (scaling_max_files scaling_min_files governor_files boost_files : Nat → Option String)
    (governor : Option String) (boost : Option Bool) (cpu_type : String)
    (intel_boost_path intel_tdp_file : Option String) (tdp : Option Int)
    (epb : Option String) (cpu_files : CpuFiles) (thread_count : Nat) :
    script_freq_thread_commands (some (min_v : ℚ)) (some (max_v : ℚ))
        (some mf) (some nf) =
      [freq_tee_command (max_v * 1000) mf, freq_tee_command (min_v * 1000) nf]
    ∧ get_frequency_commands min_v max_v (some mf) (some nf) =
      some (freq_tee_command (max_v * 1000) mf, freq_tee_command (min_v * 1000) nf)
    ∧ script_governor_command gov f ≠ governor_tee_command gov f
    ∧ applier_create_pbo_command offset_value = .error "AttributeError: parse_cpu_info"
    ∧ create_apply_script_commands min_speeds max_speeds scaling_max_files
        scaling_min_files governor governor_files boost cpu_type boost_files
        intel_boost_path tdp intel_tdp_file (some offset_value) epb cpu_files
        thread_count = .error "AttributeError: parse_cpu_info"
    ∧ (0 < thread_count →
        script_epb_commands (some "0 (Performance)") cpu_files thread_count =
          .error "KeyError: epb_files") := by
  refine ⟨?_, rfl, ?_, rfl, rfl, ?_⟩
  · rw [script_freq_thread_commands]
    have h1 : py_int_of_rat ((max_v : ℚ) * 1000) = max_v * 1000 := by
      rw [show ((max_v : ℚ) * 1000) = ((max_v * 1000 : Int) : ℚ) by push_cast; ring]
      exact py_int_of_rat_intCast _
    have h2 : py_int_of_rat ((min_v : ℚ) * 1000) = min_v * 1000 := by
      rw [show ((min_v : ℚ) * 1000) = ((min_v * 1000 : Int) : ℚ) by push_cast; ring]
      exact py_int_of_rat_intCast _
    rw [h1, h2]
    rfl
  · intro h
    have hlen := congrArg String.length h
    rw [script_governor_command, governor_tee_command] at hlen
    simp only [String.length_append] at hlen
    have e1 : ("echo " : String).length = 5 := rfl
    have e2 : (" | tee " : String).length = 7 := rfl
    have e3 : ("echo \"" : String).length = 6 := rfl
    have e4 : ("\" | sudo tee " : String).length = 13 := rfl
    rw [e1, e2, e3, e4] at hlen
    omega
  · intro htc
    rw [script_epb_commands, if_pos (by decide)]
    rw [show py_int (py_split_head "0 (Performance)") = some 0 from by decide]
    simp only
    rw [if_neg (by omega)]
    rfl

/-! ## CPU info parser
(`cpu_management.py`, `CPUManager.parse_cpu_info` lines 252–375,
`_determine_physical_cores` lines 377–446, `get_cpu_info` lines 167–250) -/

/-- Python `str.strip()`: leading and trailing whitespace removed. -/
def py_strip (s : String) : String :=
  String.mk (((s.data.dropWhile Char.isWhitespace).reverse.dropWhile
    Char.isWhitespace).reverse)

/-- Python `line.split(':', 1)` after `':' in line` held: the text before the
first colon and the text after it. -/
def split_first_colon : List Char → List Char × List Char
  | [] => ([], [])
  | c :: rest =>
      if c = ':' then ([], rest)
      else
        let (before, after) := split_first_colon rest
        (c :: before, after)

/-- Python `set.add` on an (insertion-ordered, duplicate-free) set model. -/
def set_insert (x : String) (s : List String) : List String :=
  if x ∈ s then s else s ++ [x]

/-- `core_ids_per_physical[phys_id].add(core_id)` with the
`if phys_id not in core_ids_per_physical:` default of lines 294–296. -/
def dict_add_core (phys_id core_id : String) :
    List (String × List String) → List (String × List String)
  | [] => [(phys_id, [core_id])]
  | (p, cores) :: rest =>
      if p = phys_id then (p, set_insert core_id cores) :: rest
      else (p, cores) :: dict_add_core phys_id core_id rest

/-- The keys of `current_processor` the block-end processing consults
(lines 287–302), plus whether the dict is non-empty (any `key: value` line
seen since the last blank line). -/
structure CurrentProcessor where
  nonempty : Bool
  physical_id : Option String
  core_id : Option String
  cpu_part : Option String
  cluster : Option String
deriving Repr, DecidableEq

def CurrentProcessor.empty : CurrentProcessor :=
  ⟨false, none, none, none, none⟩

/-- The accumulators of the parsing loop (lines 255–333). -/
structure ParseState where
  model_name : Option String
  physical_ids : List String
  core_ids_per_physical : List (String × List String)
  processor_count : Nat
  cpu_cores_field : Option Int
  siblings_field : Option Int
  cpu_parts : List String
  clusters : List String
  current : CurrentProcessor
deriving Repr, DecidableEq

def ParseState.initial : ParseState :=
  ⟨none, [], [], 0, none, none, [], [], CurrentProcessor.empty⟩

/-- End-of-block processing (lines 283–302 and, for the final block,
336–349): count the processor and fold its tracked fields into the
accumulators. Runs only when the current dict is non-empty. -/
def process_block (st : ParseState) : ParseState :=
  if st.current.nonempty then
    let st1 := { st with processor_count := st.processor_count + 1 }
    let st2 :=
      match st1.current.physical_id with
      | some phys_id =>
          let st' := { st1 with physical_ids := set_insert phys_id st1.physical_ids }
          match st'.current.core_id with
          | some core_id =>
              { st' with core_ids_per_physical :=
                  dict_add_core phys_id core_id st'.core_ids_per_physical }
          | none => st'
      | none => st1
    let st3 :=
      match st2.current.cpu_part with
      | some part => { st2 with cpu_parts := set_insert part st2.cpu_parts }
      | none => st2
    match st3.current.cluster with
    | some cl => { st3 with clusters := set_insert cl st3.clusters }
    | none => st3
  else st

/-- `current_processor[key] = value` restricted to the four consulted keys,
always recording that the dict became non-empty. -/
def CurrentProcessor.store (cur : CurrentProcessor) (key value : String) :
    CurrentProcessor :=
  let cur := { cur with nonempty := true }
  if key = "physical id" then { cur with physical_id := some value }
  else if key = "core id" then { cur with core_id := some value }
  else if key = "CPU part" then { cur with cpu_part := some value }
  else if key = "cluster" then { cur with cluster := some value }
  else cur

/-- One iteration of `for line in file` (lines 280–333). -/
def process_line (st : ParseState) (raw_line : String) : ParseState :=
  let line := py_strip raw_line
  if line = "" then
    { process_block st with current := CurrentProcessor.empty }
  else if (line.data.any (fun c => c = ':')) then
    let kv := split_first_colon line.data
    let key := py_strip (String.mk kv.1)
    let value := py_strip (String.mk kv.2)
    let st := { st with current := st.current.store key value }
    if (key = "model name" ∨ key = "Model name" ∨ key = "cpu model")
        ∧ ¬ pyTruthy st.model_name then
      { st with model_name := some value }
    else if key = "cpu cores" ∧ st.cpu_cores_field = none then
      match py_int value.data with
      | some n => { st with cpu_cores_field := some n }
      | none => st
    else if key = "siblings" ∧ st.siblings_field = none then
      match py_int value.data with
      | some n => { st with siblings_field := some n }
      | none => st
    else st
  else st

/-- The whole parsing loop over the file's lines, with the trailing
`if current_processor:` block of lines 336–349. -/
def parse_cpuinfo_lines (lines : List String) : ParseState :=
  process_block (lines.foldl process_line ParseState.initial)

/-- `sum(len(cores) for cores in core_ids_per_physical.values())`
(lines 386, 393). -/
def total_cores_from_topology (d : List (String × List String)) : Nat :=
  (d.map (fun kv => kv.2.length)).sum

/-- `CPUManager._determine_physical_cores` (lines 377–446), the eight
detection methods in source order. Python truthiness: an `Option Int` field
is truthy when it is `some n` with `n ≠ 0`; a list-modelled set is truthy
when non-empty. Returns `Int` because method 6 can return a (malformed,
negative) `cpu cores` field value unguarded. -/
def determine_physical_cores (cpu_cores_field siblings_field : Option Int)
    (physical_ids : List String) (core_ids_per_physical : List (String × List String))
    (processor_count : Nat) (cpu_parts clusters : List String)
    (_virtual_cores : Nat) : Int :=
  -- Method 1: the `cpu cores` field validated against the summed topology
  if (∃ n, cpu_cores_field = some n ∧ 0 < n)
      ∧ physical_ids ≠ []
      ∧ 0 < total_cores_from_topology core_ids_per_physical
      ∧ ((cpu_cores_field.getD 0) - (total_cores_from_topology core_ids_per_physical : Int)).natAbs ≤ 1 then
    cpu_cores_field.getD 0
  -- Method 2: summed physical topology
  else if core_ids_per_physical ≠ [] ∧ 0 < total_cores_from_topology core_ids_per_physical then
    (total_cores_from_topology core_ids_per_physical : Int)
  -- Method 3: ARM cluster-based detection
  else if clusters ≠ [] ∧ 1 < clusters.length ∧ 0 < processor_count / clusters.length then
    (processor_count : Int)
  -- Method 4: single CPU part type (symmetric ARM cores)
  else if cpu_parts ≠ [] ∧ cpu_parts.length = 1 then
    (processor_count : Int)
  -- Method 5: physical package count estimate
  else if physical_ids ≠ [] then
    (max 1 (processor_count / physical_ids.length) * physical_ids.length : Int)
  -- Method 6: hyperthreading-aware siblings comparison
  else if ∃ n, siblings_field = some n ∧ 0 < n then
    if (∃ m, cpu_cores_field = some m ∧ m ≠ 0)
        ∧ cpu_cores_field.getD 0 < siblings_field.getD 0 then
      cpu_cores_field.getD 0
    else if siblings_field = some (processor_count : Int) then
      siblings_field.getD 0
    -- fall through to methods 7 and 8 when neither siblings branch fires
    else if 8 < processor_count ∧ physical_ids = [] ∧ cpu_parts ≠ [] then
      (processor_count : Int)
    else if 2 < processor_count then (max 1 (processor_count / 2) : Int)
    else (processor_count : Int)
  -- Method 7: many-core ARM with no topology info
  else if 8 < processor_count ∧ physical_ids = [] ∧ cpu_parts ≠ [] then
    (processor_count : Int)
  -- Method 8: conservative fallback
  else if 2 < processor_count then (max 1 (processor_count / 2) : Int)
  else (processor_count : Int)

/-- The result quadruple of `parse_cpu_info`. -/
structure ParsedCpuInfo where
  model_name : String
  cache_sizes : List (String × Option String)
  physical_cores : Int
  virtual_cores : Nat
deriving Repr, DecidableEq

/-- The cache-size association built at lines 256–261 from the locator's
`cache_files` dict. -/
def cache_sizes_assoc (cache_files : String → Option String) :
    List (String × Option String) :=
  [("L1 Data", cache_files "1_Data"),
   ("L1 Instruction", cache_files "1_Instruction"),
   ("L2 Unified", cache_files "2_Unified"),
   ("L3 Unified", cache_files "3_Unified")]

/-- `CPUManager.parse_cpu_info` (lines 252–375). `cpuinfo_lines = none`
models the `except` branch (the file could not be opened/read), which
returns the safe defaults of line 375. `model_fallback` is the string
`_detect_cpu_model_fallback` (lines 448–487) would return — it reads
device-tree/DMI/platform state outside this repository's files and never
raises. -/
def parse_cpu_info (thread_count : Nat) (cache_files : String → Option String)
    (model_fallback : String) (cpuinfo_lines : Option (List String)) : ParsedCpuInfo :=
  match cpuinfo_lines with
  | none =>
      { model_name := "Unknown CPU"
        cache_sizes := []
        physical_cores := (max 1 (thread_count / 2) : Nat)
        virtual_cores := thread_count }
  | some lines =>
      let st := parse_cpuinfo_lines lines
      let physical_cores := determine_physical_cores st.cpu_cores_field
        st.siblings_field st.physical_ids st.core_ids_per_physical
        st.processor_count st.cpu_parts st.clusters thread_count
      let model_name :=
        match st.model_name with
        | some m => if m = "" then model_fallback else m
        | none => model_fallback
      let physical_cores : Int :=
        if physical_cores ≤ 0 then ((max 1 (thread_count / 2) : Nat) : Int) else physical_cores
      { model_name := model_name
        cache_sizes := cache_sizes_assoc cache_files
        physical_cores := physical_cores
        virtual_cores := thread_count }

/-- The dictionary `get_cpu_info` returns: its seven keys, in source order
(lines 227–235). -/
structure CpuInfo where
  model_name : String
  cache_sizes : List (String × String)
  total_ram_mb : Int
  min_mhz : List ℚ
  max_mhz : List ℚ
  physical_cores : Int
  virtual_cores : Nat
deriving Repr, DecidableEq

/-- The default dictionary returned when `cpuinfo`/`meminfo` paths are unset
or on the outer exception handler (lines 176–184, 188–196, 242–250). -/
def default_cpu_info (thread_count : Nat) : CpuInfo :=
  { model_name := "Unknown CPU Model"
    cache_sizes := []
    total_ram_mb := 0
    min_mhz := List.replicate thread_count 1000
    max_mhz := List.replicate thread_count 2000
    physical_cores := (if thread_count / 2 = 0 then 1 else thread_count / 2 : Nat)
    virtual_cores := thread_count }

/-- `CPUManager.get_cpu_info` (lines 167–250). Inputs model the ambient
state: whether the two `/proc` paths were resolved, the readable `cpuinfo`
lines (`none` = unreadable), the `read_total_ram` result, and the
`get_allowed_cpu_frequency` result (that helper is outside this claim's
scope; `get_cpu_info` replaces an empty list with its own defaults at
lines 205–207). -/
def get_cpu_info (thread_count : Nat) (cpuinfo_path_set meminfo_path_set : Bool)
    (cache_files : String → Option String) (model_fallback : String)
    (cpuinfo_lines : Option (List String)) (total_ram : Option Int)
    (min_allowed_freqs max_allowed_freqs : List ℚ) : CpuInfo :=
  if ¬ cpuinfo_path_set then default_cpu_info thread_count
  else if ¬ meminfo_path_set then default_cpu_info thread_count
  else
    let parsed := parse_cpu_info thread_count cache_files model_fallback cpuinfo_lines
    let min_freqs :=
      if min_allowed_freqs = [] ∨ max_allowed_freqs = [] then
        List.replicate thread_count (1000 : ℚ)
      else min_allowed_freqs
    let max_freqs :=
      if min_allowed_freqs = [] ∨ max_allowed_freqs = [] then
        List.replicate thread_count (2000 : ℚ)
      else max_allowed_freqs
    let cache_sizes := parsed.cache_sizes.filterMap
      (fun kv => match kv.2 with
        | some v => some (kv.1, v)
        | none => none)
    let model_name := if parsed.model_name = "" then "ARM Processor" else parsed.model_name
    let physical_cores : Int :=
      if parsed.physical_cores = 0 then
        ((if thread_count / 2 = 0 then 1 else thread_count / 2 : Nat) : Int)
      else parsed.physical_cores
    { model_name := model_name
      cache_sizes := cache_sizes
      total_ram_mb := total_ram.getD 0
      min_mhz := min_freqs
      max_mhz := max_freqs
      physical_cores := physical_cores
      virtual_cores := parsed.virtual_cores }

/-! ## Claim theorems: C10 (get_cpu_info total safety) -/

theorem parse_cpu_info_physical_pos (thread_count : Nat)
    (cache_files : String → Option String) (model_fallback : String)
    (cpuinfo_lines : Option (List String)) :
    1 ≤ (parse_cpu_info thread_count cache_files model_fallback cpuinfo_lines).physical_cores := by
  cases cpuinfo_lines with
  | none =>
      simp only [parse_cpu_info]
      have : (1 : Nat) ≤ max 1 (thread_count / 2) := le_max_left 1 _
      exact_mod_cast this
  | some lines =>
      simp only [parse_cpu_info]
      split
      · have : (1 : Nat) ≤ max 1 (thread_count / 2) := le_max_left 1 _
        exact_mod_cast this
      · next h => omega

theorem parse_cpu_info_virtual_eq (thread_count : Nat)
    (cache_files : String → Option String) (model_fallback : String)
    (cpuinfo_lines : Option (List String)) :
    (parse_cpu_info thread_count cache_files model_fallback cpuinfo_lines).virtual_cores
      = thread_count := by
  cases cpuinfo_lines <;> simp [parse_cpu_info]

/-- C10: `get_cpu_info` is a total function (the embedding has no failure
path) always yielding the seven-field record — model name, cache sizes,
total RAM, min MHz, max MHz, physical cores, virtual cores — in which
`physical_cores` is at least 1 and `virtual_cores` equals the locator's
thread count, for every combination of absent/malformed `cpuinfo` and
`meminfo` inputs; when the `cpuinfo` (or `meminfo`) path is unset it falls
back to the default record. -/
theorem get_cpu_info_total_safety (thread_count : Nat)
    (cpuinfo_path_set meminfo_path_set : Bool)
    (cache_files : String → Option String) (model_fallback : String)
    (cpuinfo_lines : Option (List String)) (total_ram : Option Int)
    (min_allowed_freqs max_allowed_freqs : List ℚ) :
    1 ≤ (get_cpu_info thread_count cpuinfo_path_set meminfo_path_set cache_files
          model_fallback cpuinfo_lines total_ram min_allowed_freqs max_allowed_freqs).physical_cores
    ∧ (get_cpu_info thread_count cpuinfo_path_set meminfo_path_set cache_files
          model_fallback cpuinfo_lines total_ram min_allowed_freqs max_allowed_freqs).virtual_cores
        = thread_count
    ∧ (cpuinfo_path_set = false →
        get_cpu_info thread_count cpuinfo_path_set meminfo_path_set cache_files
          model_fallback cpuinfo_lines total_ram min_allowed_freqs max_allowed_freqs
          = default_cpu_info thread_count)
    ∧ 1 ≤ (default_cpu_info thread_count).physical_cores
    ∧ (default_cpu_info thread_count).virtual_cores = thread_count := by
  have hdef_pos : 1 ≤ (default_cpu_info thread_count).physical_cores := by
    rw [default_cpu_info]
    simp only
    split <;> omega
  have hparse := parse_cpu_info_physical_pos thread_count cache_files model_fallback cpuinfo_lines
  have hvirt := parse_cpu_info_virtual_eq thread_count cache_files model_fallback cpuinfo_lines
  refine ⟨?_, ?_, ?_, hdef_pos, rfl⟩
  · simp only [get_cpu_info]
    split
    · exact hdef_pos
    · split
      · exact hdef_pos
      · simp only
        split
        · split <;> omega
        · next h => omega
  · simp only [get_cpu_info]
    split
    · rfl
    · split
      · rfl
      · exact hvirt
  · intro hset
    rw [get_cpu_info, if_pos (by simp [hset])]

/-! ## Directory cache walk
(`cpu_file_search.py`, `DirectoryCache.cached_directory_walk`, lines 75–107)

The filesystem is a tree of named entries. A directory carries an
`accessible` flag (`False` models `os.scandir` raising `PermissionError`)
and its children in `scandir` order. A symlink's target is irrelevant to
the walk: `entry.is_dir(follow_symlinks=False)` is `False` for a symlink
(even one pointing back at an ancestor), so the walk files it under `files`
and never follows it — which is how a symlink loop is survived. Paths are
name lists from the walk's base; the base is canonical and only real
directories are descended, so `os.path.realpath` of a visited path is the
path itself. The stack carries each pushed path together with its subtree
(the object `os.scandir` would enumerate; sibling names in a real directory
are unique, `FsEntry.wf` below). -/

inductive FsEntry where
  | dir (name : String) (accessible : Bool) (children : List FsEntry)
  | file (name : String)
  | symlink (name : String)
deriving Repr

abbrev FsPath := List String

def FsEntry.name : FsEntry → String
  | .dir n _ _ => n
  | .file n => n
  | .symlink n => n

/-- `entry.is_dir(follow_symlinks=False)`. -/
def FsEntry.is_real_dir : FsEntry → Bool
  | .dir _ _ _ => true
  | _ => false

mutual

/-- Node count of a subtree (the walk's fuel measure). -/
def entrySize : FsEntry → Nat
  | .dir _ _ children => 1 + entryListSize children
  | .file _ => 1
  | .symlink _ => 1

def entryListSize : List FsEntry → Nat
  | [] => 0
  | c :: cs => entrySize c + entryListSize cs

end

/-- The `for entry in scanner` loop (lines 94–101): split the children into
the `subdirs` name list (real directories whose canonical path is not in
`seen_paths`, pushed onto the stack) and the `files` name list (everything
else, symlinks included). Returns `(subdirs, pushed, files)` in `scandir`
order. -/
def scan_children (path : FsPath) (seen : List FsPath) :
    List FsEntry → List String × List (FsPath × FsEntry) × List String
  | [] => ([], [], [])
  | c :: cs =>
      let (subdirs, pushed, files) := scan_children path seen cs
      match c with
      | .dir n a children =>
          if path ++ [n] ∉ seen then
            (n :: subdirs, (path ++ [n], FsEntry.dir n a children) :: pushed, files)
          else (subdirs, pushed, files)
      | e => (subdirs, pushed, e.name :: files)

/-- Python dict `self.cache` keyed by path (`DirectoryCache.get`, line 67);
`if cached:` is truthy for any stored entry. -/
def cache_lookup (cache : List (FsPath × List String × List String)) (p : FsPath) :
    Option (List String × List String) :=
  match cache with
  | [] => none
  | (q, v) :: rest => if q = p then some v else cache_lookup rest p

/-- The `while stack:` loop of `cached_directory_walk` (lines 80–107), with
explicit fuel (`none` = fuel exhausted; the claim theorem shows node-count
fuel always suffices). Each iteration pops the top of the stack; a path
already in `seen_paths` is skipped; a cached path is yielded from the cache
**without descending** (`continue` at line 89); otherwise the directory is
scanned, its fresh subdirectories pushed, the result cached and yielded. A
directory whose scan is not permitted is skipped silently; a non-directory
path raises `OSError`, which is logged and the walk continues. -/
def walk_loop (cache : List (FsPath × List String × List String)) :
    Nat → List (FsPath × FsEntry) → List FsPath →
    Option (List (FsPath × List String × List String))
  | _, [], _ => some []
  | 0, _ :: _, _ => none
  | fuel + 1, (path, node) :: rest, seen =>
      if path ∈ seen then walk_loop cache fuel rest seen
      else
        let seen' := path :: seen
        match cache_lookup cache path with
        | some (subdirs, files) =>
            (walk_loop cache fuel rest seen').map ((path, subdirs, files) :: ·)
        | none =>
            match node with
            | .dir _ accessible children =>
                if accessible then
                  let (subdirs, pushed, files) := scan_children path seen' children
                  (walk_loop ((path, subdirs, files) :: cache) fuel
                      (pushed.reverse ++ rest) seen').map ((path, subdirs, files) :: ·)
                else walk_loop cache fuel rest seen'
            | _ => walk_loop cache fuel rest seen'

/-- `cached_directory_walk(base_path)` from a fresh in-process cache (the
state at the start of the first walk of a process: `self.cache = {}`,
line 28), on the tree rooted at the base path. -/
def cached_directory_walk (fuel : Nat) (base : FsEntry) :
    Option (List (FsPath × List String × List String)) :=
  walk_loop [] fuel [([], base)] []

mutual

/-- The real directories the walk can reach and scan: a node's own path when
it is an accessible directory, and recursively those of its directory
children. An inaccessible directory contributes nothing below it (its
children can only be discovered by scanning it). -/
def accessible_dirs (p : FsPath) : FsEntry → List FsPath
  | .dir _ accessible children =>
      if accessible then p :: accessible_dirs_list p children else []
  | _ => []

def accessible_dirs_list (parent : FsPath) : List FsEntry → List FsPath
  | [] => []
  | c :: cs => accessible_dirs (parent ++ [c.name]) c ++ accessible_dirs_list parent cs

end

mutual

/-- Every node path of a subtree (directories, files and symlinks alike). -/
def node_paths (p : FsPath) : FsEntry → List FsPath
  | .dir _ _ children => p :: node_paths_list p children
  | _ => [p]

def node_paths_list (parent : FsPath) : List FsEntry → List FsPath
  | [] => []
  | c :: cs => node_paths (parent ++ [c.name]) c ++ node_paths_list parent cs

end

mutual

/-- Well-formed directory tree: sibling names are distinct at every level
(as in a real filesystem, where a directory cannot hold two equally named
entries). -/
def FsEntry.wf : FsEntry → Prop
  | .dir _ _ children => (children.map FsEntry.name).Nodup ∧ wf_children children
  | _ => True

def wf_children : List FsEntry → Prop
  | [] => True
  | c :: cs => c.wf ∧ wf_children cs

end

/-- All node paths carried by a walk stack. -/
def stack_paths (stack : List (FsPath × FsEntry)) : List FsPath :=
  stack.flatMap (fun pe => node_paths pe.1 pe.2)

/-- Total node count carried by a walk stack. -/
def stack_sizes (stack : List (FsPath × FsEntry)) : Nat :=
  (stack.map (fun pe => entrySize pe.2)).sum

/-! Structural lemmas for the walk proof. -/

theorem self_mem_node_paths (p : FsPath) (e : FsEntry) : p ∈ node_paths p e := by
  cases e <;> simp [node_paths]

theorem node_paths_list_mem {parent : FsPath} {cs : List FsEntry} {q : FsPath}
    (h : q ∈ node_paths_list parent cs) :
    ∃ c ∈ cs, q ∈ node_paths (parent ++ [c.name]) c := by
  induction cs with
  | nil => simp [node_paths_list] at h
  | cons c cs ih =>
      rw [node_paths_list, List.mem_append] at h
      rcases h with h | h
      · exact ⟨c, List.mem_cons_self c cs, h⟩
      · obtain ⟨c', hc', hq⟩ := ih h
        exact ⟨c', List.mem_cons_of_mem c hc', hq⟩

mutual

theorem node_paths_extends : ∀ (e : FsEntry) (p q : FsPath),
    q ∈ node_paths p e → p <+: q
  | .dir nm a children, p, q, h => by
      simp only [node_paths, List.mem_cons] at h
      rcases h with rfl | h
      · exact List.prefix_refl q
      · exact (node_paths_list_extends children p q h).2
  | .file nm, p, q, h => by
      simp only [node_paths, List.mem_singleton] at h
      exact h ▸ List.prefix_refl p
  | .symlink nm, p, q, h => by
      simp only [node_paths, List.mem_singleton] at h
      exact h ▸ List.prefix_refl p

theorem node_paths_list_extends : ∀ (cs : List FsEntry) (parent q : FsPath),
    q ∈ node_paths_list parent cs → parent.length < q.length ∧ parent <+: q
  | [], parent, q, h => by simp [node_paths_list] at h
  | c :: cs, parent, q, h => by
      rw [node_paths_list, List.mem_append] at h
      rcases h with h | h
      · have hpre := node_paths_extends c (parent ++ [c.name]) q h
        have hlen : parent.length + 1 ≤ q.length := by
          have := hpre.length_le
          simpa using this
        exact ⟨by omega, (parent.prefix_append [c.name]).trans hpre⟩
      · exact node_paths_list_extends cs parent q h

end

theorem prefix_snoc_inj {l : List String} {a b : String} {q : List String}
    (ha : l ++ [a] <+: q) (hb : l ++ [b] <+: q) : a = b := by
  obtain ⟨t1, h1⟩ := ha
  obtain ⟨t2, h2⟩ := hb
  rw [← h2] at h1
  rw [List.append_assoc, List.append_assoc] at h1
  have := List.append_cancel_left h1
  simpa using List.head_eq_of_cons_eq (by simpa using this)

theorem wf_children_mem {cs : List FsEntry} {c : FsEntry}
    (hwf : wf_children cs) (hc : c ∈ cs) : c.wf := by
  induction cs with
  | nil => simp at hc
  | cons d ds ih =>
      rw [wf_children] at hwf
      rcases List.mem_cons.mp hc with rfl | hc
      · exact hwf.1
      · exact ih hwf.2 hc

mutual

theorem node_paths_nodup : ∀ (e : FsEntry) (p : FsPath),
    e.wf → (node_paths p e).Nodup
  | .dir nm a children, p, hwf => by
      rw [FsEntry.wf] at hwf
      rw [node_paths, List.nodup_cons]
      refine ⟨fun hmem => ?_, node_paths_list_nodup children p hwf.1 hwf.2⟩
      exact absurd (node_paths_list_extends children p p hmem).1 (by omega)
  | .file nm, p, _ => by
      simp only [node_paths]
      exact List.nodup_singleton p
  | .symlink nm, p, _ => by
      simp only [node_paths]
      exact List.nodup_singleton p

theorem node_paths_list_nodup : ∀ (cs : List FsEntry) (parent : FsPath),
    (cs.map FsEntry.name).Nodup → wf_children cs → (node_paths_list parent cs).Nodup
  | [], parent, _, _ => by
      rw [node_paths_list]
      exact List.nodup_nil
  | c :: cs, parent, hnames, hwf => by
      rw [wf_children] at hwf
      rw [List.map_cons, List.nodup_cons] at hnames
      rw [node_paths_list]
      rw [List.nodup_append]
      refine ⟨node_paths_nodup c (parent ++ [c.name]) hwf.1,
        node_paths_list_nodup cs parent hnames.2 hwf.2, ?_⟩
      intro q hq hq'
      obtain ⟨c', hc', hq'⟩ := node_paths_list_mem hq'
      have h1 : parent ++ [c.name] <+: q := node_paths_extends c _ q hq
      have h2 : parent ++ [c'.name] <+: q := node_paths_extends c' _ q hq'
      have : c.name = c'.name := prefix_snoc_inj h1 h2
      exact hnames.1 (this ▸ List.mem_map_of_mem FsEntry.name hc')

end

/-- What `scan_children` pushes when nothing is filtered: the real-directory
children with their paths, in `scandir` order. -/
def pushed_of (path : FsPath) : List FsEntry → List (FsPath × FsEntry)
  | [] => []
  | c :: cs =>
      match c with
      | .dir n a children => (path ++ [n], FsEntry.dir n a children) :: pushed_of path cs
      | _ => pushed_of path cs

/-- The non-directory names of a child list, in order. -/
def nondir_names : List FsEntry → List String
  | [] => []
  | c :: cs =>
      match c with
      | .dir _ _ _ => nondir_names cs
      | e => e.name :: nondir_names cs

/-- The real-directory names of a child list, in order. -/
def dir_names : List FsEntry → List String
  | [] => []
  | c :: cs =>
      match c with
      | .dir n _ _ => n :: dir_names cs
      | _ => dir_names cs

theorem scan_children_fresh (path : FsPath) (seen : List FsPath) :
    ∀ cs : List FsEntry, (∀ c ∈ cs, path ++ [c.name] ∉ seen) →
    scan_children path seen cs = (dir_names cs, pushed_of path cs, nondir_names cs) := by
  intro cs
  induction cs with
  | nil => intro _; rfl
  | cons c cs ih =>
      intro hfresh
      have hrest := ih (fun d hd => hfresh d (List.mem_cons_of_mem c hd))
      cases c with
      | dir n a children =>
          have hn : path ++ [n] ∉ seen :=
            hfresh (FsEntry.dir n a children) (List.mem_cons_self _ _)
          rw [scan_children, hrest]
          simp only [dir_names, pushed_of, nondir_names]
          rw [if_pos hn]
      | file n =>
          rw [scan_children, hrest]
          rfl
      | symlink n =>
          rw [scan_children, hrest]
          rfl

theorem stack_paths_cons (pe : FsPath × FsEntry) (st : List (FsPath × FsEntry)) :
    stack_paths (pe :: st) = node_paths pe.1 pe.2 ++ stack_paths st := by
  rw [stack_paths, List.flatMap_cons, stack_paths]

theorem stack_sizes_cons (pe : FsPath × FsEntry) (st : List (FsPath × FsEntry)) :
    stack_sizes (pe :: st) = entrySize pe.2 + stack_sizes st := by
  rw [stack_sizes, List.map_cons, List.sum_cons, stack_sizes]

theorem pushed_of_paths_sublist (path : FsPath) (cs : List FsEntry) :
    List.Sublist (stack_paths (pushed_of path cs)) (node_paths_list path cs) := by
  induction cs with
  | nil => simp [pushed_of, stack_paths, node_paths_list]
  | cons c cs ih =>
      cases c with
      | dir n a children =>
          simp only [pushed_of, node_paths_list, stack_paths_cons]
          exact List.Sublist.append (List.Sublist.refl _) ih
      | file n =>
          simp only [pushed_of, node_paths_list]
          exact ih.trans (List.sublist_append_right _ _)
      | symlink n =>
          simp only [pushed_of, node_paths_list]
          exact ih.trans (List.sublist_append_right _ _)

theorem entrySize_pos (e : FsEntry) : 0 < entrySize e := by
  cases e <;> simp [entrySize]

theorem pushed_of_sizes (path : FsPath) (cs : List FsEntry) :
    stack_sizes (pushed_of path cs) ≤ entryListSize cs := by
  induction cs with
  | nil => simp [pushed_of, stack_sizes, entryListSize]
  | cons c cs ih =>
      cases c with
      | dir n a children =>
          simp only [pushed_of, entryListSize, stack_sizes_cons]
          omega
      | file n =>
          simp only [pushed_of, entryListSize]
          have := entrySize_pos (FsEntry.file n)
          omega
      | symlink n =>
          simp only [pushed_of, entryListSize]
          have := entrySize_pos (FsEntry.symlink n)
          omega

theorem pushed_of_accessible (path : FsPath) (cs : List FsEntry) :
    (pushed_of path cs).flatMap (fun pe => accessible_dirs pe.1 pe.2) =
      accessible_dirs_list path cs := by
  induction cs with
  | nil => simp [pushed_of, accessible_dirs_list]
  | cons c cs ih =>
      cases c with
      | dir n a children =>
          simp only [pushed_of, accessible_dirs_list, List.flatMap_cons, ih]
          rfl
      | file n =>
          simp only [pushed_of, accessible_dirs_list, ih, FsEntry.name, accessible_dirs]
          rfl
      | symlink n =>
          simp only [pushed_of, accessible_dirs_list, ih, FsEntry.name, accessible_dirs]
          rfl

theorem pushed_of_wf {cs : List FsEntry} (hwf : wf_children cs) (path : FsPath) :
    ∀ pe ∈ pushed_of path cs, pe.2.wf := by
  induction cs with
  | nil => simp [pushed_of]
  | cons c cs ih =>
      rw [wf_children] at hwf
      cases c with
      | dir n a children =>
          simp only [pushed_of]
          intro pe hpe
          rcases List.mem_cons.mp hpe with rfl | hpe
          · exact hwf.1
          · exact ih hwf.2 pe hpe
      | file n =>
          simp only [pushed_of]
          exact ih hwf.2
      | symlink n =>
          simp only [pushed_of]
          exact ih hwf.2

theorem pushed_of_mem_paths (path : FsPath) (cs : List FsEntry) {q : FsPath}
    (h : q ∈ stack_paths (pushed_of path cs)) : q ∈ node_paths_list path cs :=
  (pushed_of_paths_sublist path cs).mem h


theorem child_path_mem_node_paths_list {cs : List FsEntry} {c : FsEntry}
    (hc : c ∈ cs) (parent : FsPath) :
    parent ++ [c.name] ∈ node_paths_list parent cs := by
  induction cs with
  | nil => simp at hc
  | cons d ds ih =>
      rw [node_paths_list, List.mem_append]
      rcases List.mem_cons.mp hc with rfl | hc
      · exact Or.inl (self_mem_node_paths _ _)
      · exact Or.inr (ih hc)

theorem stack_paths_append (a b : List (FsPath × FsEntry)) :
    stack_paths (a ++ b) = stack_paths a ++ stack_paths b := by
  rw [stack_paths, List.flatMap_append, stack_paths, stack_paths]

theorem stack_paths_reverse_perm (l : List (FsPath × FsEntry)) :
    (stack_paths l.reverse).Perm (stack_paths l) :=
  List.Perm.flatMap_right _ (List.reverse_perm l)

theorem stack_sizes_append (a b : List (FsPath × FsEntry)) :
    stack_sizes (a ++ b) = stack_sizes a + stack_sizes b := by
  rw [stack_sizes, List.map_append, List.sum_append, stack_sizes, stack_sizes]

theorem stack_sizes_reverse (l : List (FsPath × FsEntry)) :
    stack_sizes l.reverse = stack_sizes l := by
  rw [stack_sizes, List.map_reverse, List.sum_reverse, stack_sizes]

theorem flatMap_reverse_perm (l : List (FsPath × FsEntry))
    (f : FsPath × FsEntry → List FsPath) :
    (l.reverse.flatMap f).Perm (l.flatMap f) :=
  List.Perm.flatMap_right _ (List.reverse_perm l)

/-- The loop invariant theorem: with pairwise-fresh stack subtrees, enough
fuel, and a cache holding none of the stack's paths, the loop terminates and
its yields cover each stack entry's accessible directories exactly as often
as the specification lists them. -/
theorem walk_loop_spec (fuel : Nat) :
    ∀ (stack : List (FsPath × FsEntry)) (seen : List FsPath)
      (cache : List (FsPath × List String × List String)),
    (∀ pe ∈ stack, FsEntry.wf pe.2) →
    (stack_paths stack).Nodup →
    (∀ q ∈ stack_paths stack, q ∉ seen) →
    (∀ q ∈ stack_paths stack, cache_lookup cache q = none) →
    stack_sizes stack ≤ fuel →
    ∃ out, walk_loop cache fuel stack seen = some out ∧
      ∀ q, (out.map (fun y => y.1)).count q =
        (stack.flatMap (fun pe => accessible_dirs pe.1 pe.2)).count q := by
  induction fuel with
  | zero =>
      intro stack seen cache _ _ _ _ hfuel
      cases stack with
      | nil => exact ⟨[], rfl, fun q => by simp⟩
      | cons pe rest =>
          exfalso
          rw [stack_sizes_cons] at hfuel
          have := entrySize_pos pe.2
          omega
  | succ f ih =>
      intro stack seen cache hwf hnd hseen hcache hfuel
      cases stack with
      | nil => exact ⟨[], rfl, fun q => by simp⟩
      | cons pe rest =>
          obtain ⟨path, node⟩ := pe
          have hpath_stack : path ∈ stack_paths ((path, node) :: rest) := by
            rw [stack_paths_cons, List.mem_append]
            exact Or.inl (self_mem_node_paths path node)
          have hpath_seen : path ∉ seen := hseen path hpath_stack
          have hpath_cache : cache_lookup cache path = none := hcache path hpath_stack
          rw [stack_paths_cons] at hnd
          have hdisj := List.disjoint_of_nodup_append hnd
          -- the tail's invariants (used by every skip branch)
          have hwf_rest : ∀ q ∈ rest, FsEntry.wf q.2 :=
            fun q hq => hwf q (List.mem_cons_of_mem _ hq)
          have hnd_rest : (stack_paths rest).Nodup := hnd.of_append_right
          have hseen_rest : ∀ q ∈ stack_paths rest, q ∉ path :: seen := by
            intro q hq
            rw [List.mem_cons]
            rintro (rfl | hq')
            · exact hdisj (self_mem_node_paths q node) hq
            · exact hseen q (by rw [stack_paths_cons, List.mem_append]; exact Or.inr hq) hq'
          have hcache_rest : ∀ q ∈ stack_paths rest, cache_lookup cache q = none :=
            fun q hq => hcache q (by rw [stack_paths_cons, List.mem_append]; exact Or.inr hq)
          have hfuel_rest : stack_sizes rest ≤ f := by
            rw [stack_sizes_cons] at hfuel
            have hfuel2 : entrySize node + stack_sizes rest ≤ f + 1 := hfuel
            have := entrySize_pos node
            omega
          have hskip := ih rest (path :: seen) cache hwf_rest hnd_rest hseen_rest
            hcache_rest hfuel_rest
          cases node with
          | file nm =>
              obtain ⟨out, heq, hcount⟩ := hskip
              refine ⟨out, ?_, ?_⟩
              · rw [walk_loop, if_neg hpath_seen, hpath_cache]
                exact heq
              · intro q
                rw [List.flatMap_cons]
                simp only [accessible_dirs, List.nil_append]
                exact hcount q
          | symlink nm =>
              obtain ⟨out, heq, hcount⟩ := hskip
              refine ⟨out, ?_, ?_⟩
              · rw [walk_loop, if_neg hpath_seen, hpath_cache]
                exact heq
              · intro q
                rw [List.flatMap_cons]
                simp only [accessible_dirs, List.nil_append]
                exact hcount q
          | dir nm acc children =>
              have hnode_wf : (FsEntry.dir nm acc children).wf :=
                hwf (path, FsEntry.dir nm acc children) (List.mem_cons_self _ _)
              rw [FsEntry.wf] at hnode_wf
              cases acc with
              | false =>
                  obtain ⟨out, heq, hcount⟩ := hskip
                  refine ⟨out, ?_, ?_⟩
                  · rw [walk_loop, if_neg hpath_seen, hpath_cache]
                    simp only [Bool.false_eq_true, if_neg]
                    exact heq
                  · intro q
                    rw [List.flatMap_cons]
                    simp only [accessible_dirs, Bool.false_eq_true, if_neg, List.nil_append]
                    exact hcount q
              | true =>
                  -- every child path is fresh, so nothing is filtered
                  have hnpl : node_paths path (FsEntry.dir nm true children) =
                      path :: node_paths_list path children := rfl
                  have hchild_fresh : ∀ c ∈ children, path ++ [c.name] ∉ path :: seen := by
                    intro c hc
                    have hin : path ++ [c.name] ∈ node_paths_list path children :=
                      child_path_mem_node_paths_list hc path
                    rw [List.mem_cons]
                    rintro (heq | hmem)
                    · have := congrArg List.length heq
                      simp at this
                    · exact hseen (path ++ [c.name])
                        (by rw [stack_paths_cons, List.mem_append, hnpl]
                            exact Or.inl (List.mem_cons_of_mem _ hin)) hmem
                  have hscan := scan_children_fresh path (path :: seen) children hchild_fresh
                  -- invariants of the post-push state
                  have hnd_tail : (node_paths_list path children ++ stack_paths rest).Nodup := by
                    rw [hnpl, List.cons_append, List.nodup_cons] at hnd
                    exact hnd.2
                  have hpath_tail : path ∉ node_paths_list path children ++ stack_paths rest := by
                    rw [hnpl, List.cons_append, List.nodup_cons] at hnd
                    exact hnd.1
                  have hmem_split : ∀ q ∈ stack_paths ((pushed_of path children).reverse ++ rest),
                      q ∈ node_paths_list path children ++ stack_paths rest := by
                    intro q hq
                    rw [stack_paths_append] at hq
                    rw [List.mem_append] at hq ⊢
                    rcases hq with hq | hq
                    · exact Or.inl (pushed_of_mem_paths path children
                        ((stack_paths_reverse_perm _).mem_iff.mp hq))
                    · exact Or.inr hq
                  have hwf' : ∀ q ∈ (pushed_of path children).reverse ++ rest, FsEntry.wf q.2 := by
                    intro q hq
                    rw [List.mem_append] at hq
                    rcases hq with hq | hq
                    · exact pushed_of_wf hnode_wf.2 path q (List.mem_reverse.mp hq)
                    · exact hwf_rest q hq
                  have hnd' : (stack_paths ((pushed_of path children).reverse ++ rest)).Nodup := by
                    have hperm : (stack_paths ((pushed_of path children).reverse ++ rest)).Perm
                        (stack_paths (pushed_of path children) ++ stack_paths rest) := by
                      rw [stack_paths_append]
                      exact (stack_paths_reverse_perm _).append_right _
                    have hsub : List.Sublist
                        (stack_paths (pushed_of path children) ++ stack_paths rest)
                        (node_paths_list path children ++ stack_paths rest) :=
                      List.Sublist.append (pushed_of_paths_sublist path children)
                        (List.Sublist.refl _)
                    exact hperm.nodup_iff.mpr (List.Nodup.sublist hsub hnd_tail)
                  have hseen' : ∀ q ∈ stack_paths ((pushed_of path children).reverse ++ rest),
                      q ∉ path :: seen := by
                    intro q hq
                    have hq' := hmem_split q hq
                    rw [List.mem_cons]
                    rintro (rfl | hmem)
                    · exact hpath_tail hq'
                    · refine hseen q ?_ hmem
                      rw [stack_paths_cons, List.mem_append, hnpl]
                      rw [List.mem_append] at hq'
                      rcases hq' with hq' | hq'
                      · exact Or.inl (List.mem_cons_of_mem _ hq')
                      · exact Or.inr hq'
                  have hcache' : ∀ q ∈ stack_paths ((pushed_of path children).reverse ++ rest),
                      cache_lookup ((path, dir_names children, nondir_names children) :: cache) q
                        = none := by
                    intro q hq
                    have hq' := hmem_split q hq
                    have hqp : path ≠ q := by
                      rintro rfl
                      exact hpath_tail hq'
                    rw [cache_lookup, if_neg hqp]
                    refine hcache q ?_
                    rw [stack_paths_cons, List.mem_append, hnpl]
                    rw [List.mem_append] at hq'
                    rcases hq' with hq' | hq'
                    · exact Or.inl (List.mem_cons_of_mem _ hq')
                    · exact Or.inr hq'
                  have hfuel' : stack_sizes ((pushed_of path children).reverse ++ rest) ≤ f := by
                    rw [stack_sizes_append, stack_sizes_reverse]
                    have h1 := pushed_of_sizes path children
                    rw [stack_sizes_cons] at hfuel
                    have hfuel2 : entrySize (FsEntry.dir nm true children) + stack_sizes rest
                        ≤ f + 1 := hfuel
                    have h2 : entrySize (FsEntry.dir nm true children) =
                        1 + entryListSize children := rfl
                    omega
                  obtain ⟨out, heq, hcount⟩ := ih ((pushed_of path children).reverse ++ rest)
                    (path :: seen)
                    ((path, dir_names children, nondir_names children) :: cache)
                    hwf' hnd' hseen' hcache' hfuel'
                  refine ⟨(path, dir_names children, nondir_names children) :: out, ?_, ?_⟩
                  · rw [walk_loop, if_neg hpath_seen, hpath_cache]
                    simp only [hscan, heq]
                    rw [if_pos trivial]
                    rfl
                  · intro q
                    have hflat : ((((pushed_of path children).reverse ++ rest).flatMap
                        (fun pe => accessible_dirs pe.1 pe.2)).count q) =
                        ((accessible_dirs_list path children ++
                          rest.flatMap (fun pe => accessible_dirs pe.1 pe.2)).count q) := by
                      rw [List.flatMap_append]
                      rw [← pushed_of_accessible path children]
                      exact List.Perm.countP_eq (fun x => x == q)
                        ((flatMap_reverse_perm _ _).append_right _)
                    rw [List.flatMap_cons]
                    have hacc : accessible_dirs path (FsEntry.dir nm true children) =
                        path :: accessible_dirs_list path children := by
                      rw [accessible_dirs, if_pos rfl]
                    rw [hacc, List.cons_append, List.map_cons, List.count_cons,
                      List.count_cons, hcount q, hflat]

mutual

theorem accessible_dirs_sublist : ∀ (e : FsEntry) (p : FsPath),
    List.Sublist (accessible_dirs p e) (node_paths p e)
  | .dir nm a children, p => by
      simp only [accessible_dirs, node_paths]
      cases a with
      | true =>
          rw [if_pos rfl]
          exact List.Sublist.cons₂ p (accessible_dirs_list_sublist children p)
      | false =>
          rw [if_neg (by simp)]
          exact List.nil_sublist _
  | .file nm, p => by
      simp only [accessible_dirs, node_paths]
      exact List.nil_sublist _
  | .symlink nm, p => by
      simp only [accessible_dirs, node_paths]
      exact List.nil_sublist _

theorem accessible_dirs_list_sublist : ∀ (cs : List FsEntry) (parent : FsPath),
    List.Sublist (accessible_dirs_list parent cs) (node_paths_list parent cs)
  | [], parent => by
      simp only [accessible_dirs_list, node_paths_list]
      exact List.Sublist.refl _
  | c :: cs, parent => by
      simp only [accessible_dirs_list, node_paths_list]
      exact List.Sublist.append (accessible_dirs_sublist c (parent ++ [c.name]))
        (accessible_dirs_list_sublist cs parent)

end

theorem fspath_count_nodup (q : FsPath) (l : List FsPath) (hnd : l.Nodup) :
    l.count q = if q ∈ l then 1 else 0 := by
  induction l with
  | nil => simp
  | cons a l ih =>
      rw [List.nodup_cons] at hnd
      rw [List.count_cons, ih hnd.2]
      by_cases hqa : q = a
      · subst hqa
        simp [hnd.1]
      · simp [hqa, Ne.symm hqa]

/-- C7: on every well-formed directory tree — symlink loops back to an
ancestor included (symlinks are classified as files and never followed) —
`cached_directory_walk` started with a fresh cache terminates within
node-count fuel and yields every reachable, scannable real directory exactly
once: count 1 for each path in `accessible_dirs`, count 0 for every other
path. Directories whose scan raises `PermissionError` are skipped (count 0)
without aborting the walk (every other reachable directory still has
count 1). -/
theorem cached_directory_walk_spec (t : FsEntry) (hwf : t.wf) :
    ∃ out, cached_directory_walk (entrySize t) t = some out
      ∧ ∀ q : FsPath,
          (out.map (fun y => y.1)).count q =
            if q ∈ accessible_dirs [] t then 1 else 0 := by
  obtain ⟨out, heq, hcount⟩ := walk_loop_spec (entrySize t) [([], t)] [] []
    (by intro pe hpe; rw [List.mem_singleton] at hpe; subst hpe; exact hwf)
    (by rw [stack_paths, List.flatMap_cons, List.flatMap_nil, List.append_nil]
        exact node_paths_nodup t [] hwf)
    (by intro q _; exact List.not_mem_nil q)
    (by intro q _; rfl)
    (by rw [stack_sizes_cons, stack_sizes]; simp)
  refine ⟨out, heq, fun q => ?_⟩
  have hflat : ([([], t)].flatMap (fun pe => accessible_dirs pe.1 pe.2)) =
      accessible_dirs [] t := by
    rw [List.flatMap_cons, List.flatMap_nil, List.append_nil]
  rw [hcount q, hflat]
  have hnd : (accessible_dirs [] t).Nodup :=
    List.Nodup.sublist (accessible_dirs_sublist t []) (node_paths_nodup t [] hwf)
  exact fspath_count_nodup q (accessible_dirs [] t) hnd

/-- The witness tree: an accessible root holding an accessible subdirectory
with a symlink loop back to the root, a permission-denied subdirectory with
a hidden child, and a plain file. -/
def demo_tree : FsEntry :=
  .dir "root" true
    [.dir "a" true [.symlink "loop", .file "f1"],
     .dir "denied" false [.dir "hidden" true []],
     .file "f2"]

/-- Witness for `cached_directory_walk_spec` on `demo_tree`: the walk
terminates, yields the root (listing `a` and `denied` as subdirs, the
symlink filed under files) and then `a` — each accessible real directory
exactly once, the denied directory and its hidden child never. -/
theorem cached_directory_walk_spec_witness :
    (∃ out, cached_directory_walk (entrySize demo_tree) demo_tree = some out
      ∧ ∀ q : FsPath,
          (out.map (fun y => y.1)).count q =
            if q ∈ accessible_dirs [] demo_tree then 1 else 0)
    ∧ entrySize demo_tree = 7
    ∧ cached_directory_walk 7 demo_tree =
        some [([], ["a", "denied"], ["f2"]), (["a"], [], ["loop", "f1"])]
    ∧ accessible_dirs [] demo_tree = [[], ["a"]] := by
  refine ⟨cached_directory_walk_spec demo_tree ?_, ?_, ?_, ?_⟩
  · simp [demo_tree, FsEntry.wf, wf_children, FsEntry.name]
  · simp [demo_tree, entrySize, entryListSize]
  · decide
  · simp [demo_tree, accessible_dirs, accessible_dirs_list, FsEntry.name]
